import Mathlib

/-!
# Sparta `describe`: the topology-graph assembly

A shallow embedding of `src/describe.go` (package `sparta`): the capability
dispatcher `workflowHooksDescriptionNodes` and the assembler `Describe`.

Conventions of the embedding

* A Go `error` value is identified with its message (`Error`), `nil` is `none`.
* A Go function returning `(T, error)` whose caller looks at the error first is
  an `Except Error T`; a function that mutates a receiver and returns `error`
  returns `Option Error` paired with the new receiver.
* Producers (`LambdaAWSInfo.Description`, `APIGateway.Describe`,
  `Describable.Describe`) are inputs of `Describe`; they are embedded as
  functions of the service name.  Each invocation is recorded in a call log so
  that "is never invoked" can be stated.
* Collaborators that live outside `src/` (validation, provisioning, JSON
  encoding, template rendering, package constants) are the fields of
  `Externals`; every theorem quantifies over them.
* Logging is not modelled.
-/

namespace Sparta

/-- A Go `error`, identified with its message. -/
abbrev Error := String

/-- The icon of a node: `DescriptionIcon{Category, Name}` as read by `fullIconPath`. -/
structure DescriptionIcon where
  Category : String
  Name : String
deriving DecidableEq, Repr

/-- Optional display metadata of a triplet; `SourceIcon` is a pointer that may be nil. -/
structure DescriptionDisplayInfo where
  SourceNodeColor : String
  SourceIcon : Option DescriptionIcon
deriving DecidableEq, Repr

/-- The unit a producer emits; `DisplayInfo` is a pointer that may be nil. -/
structure DescriptionTriplet where
  SourceNodeName : String
  DisplayInfo : Option DescriptionDisplayInfo
  ArcLabel : String
  TargetNodeName : String
deriving DecidableEq, Repr

/-- The output of one `Describe` capability call: a group label and its triplets. -/
structure DescriptionInfo where
  Name : String
  Nodes : List DescriptionTriplet
deriving DecidableEq, Repr

/-- A compute unit, seen through the one method `Describe` uses:
`Description(serviceName) ([]*DescriptionTriplet, error)`. -/
structure LambdaAWSInfo where
  Description : String → Except Error (List DescriptionTriplet)

/-- The gateway interface, seen through `Describe(serviceName) (*DescriptionInfo, error)`. -/
structure APIGateway where
  Describe : String → Except Error DescriptionInfo

/-- The capability interface `Describable`. -/
structure Describable where
  Describe : String → Except Error DescriptionInfo

/-- One entry of `WorkflowHooks.ServiceDecorators`.  The field is the outcome of the
type assertion `eachServiceDecorator.(Describable)`: `none` when the dynamic type
lacks the capability. -/
structure ServiceDecoratorHookHandler where
  describable : Option Describable

/-- The part of `WorkflowHooks` that `describe.go` reads. -/
structure WorkflowHooks where
  ServiceDecorators : List ServiceDecoratorHookHandler

/-- Modelled from the spec: the constants `labelWeightNormal` and `labelWeightBold`
are declared outside `src/`; the spec gives the weight as `enum{Normal, Bold}`. -/
inductive LabelWeight where
  | labelWeightNormal
  | labelWeightBold
deriving DecidableEq, Repr

/-- Modelled from the spec: the record type `cytoscapeNode` is declared outside
`src/`.  The spec's data model has node records
`{id, color, iconPath, parent, weight}` and edge records `{source, target, label}`
in one ordered sequence, "distinguished by their record shape".  `parent` is the
string handed to `writeNodeWithParent`; the empty string is "no parent". -/
inductive cytoscapeNode where
  | node (id color iconPath parent : String) (weight : LabelWeight)
  | edge (source target label : String)
deriving DecidableEq, Repr

/-- The writer built at lines 87-90: `descriptionWriter{nodes, logger}`. -/
structure descriptionWriter where
  nodes : List cytoscapeNode
deriving DecidableEq, Repr

/-- Modelled from the spec: the method `descriptionWriter.writeNodeWithParent` is
defined outside `src/`.  Spec 4.2: it "appends one node record" and "never fail[s]
in normal operation".  The group materialisation that the spec describes in the same
bullet is, in the source, the `parentMap` test of `writeNodes` (lines 126-141), which
is embedded from the source below; the writer itself holds only the record
sequence (lines 87-90). -/
def descriptionWriter.writeNodeWithParent (dw : descriptionWriter)
    (nodeName nodeColor nodeImage nodeParent : String) (labelWeight : LabelWeight) :
    Option Error × descriptionWriter :=
  (none, { nodes := dw.nodes ++ [cytoscapeNode.node nodeName nodeColor nodeImage nodeParent labelWeight] })

/-- Modelled from the spec: the method `descriptionWriter.writeEdge` is defined
outside `src/`.  Spec 4.2: it "appends one edge record unconditionally; no lookup
against existing nodes is performed". -/
def descriptionWriter.writeEdge (dw : descriptionWriter)
    (fromNode toNode label : String) : Option Error × descriptionWriter :=
  (none, { nodes := dw.nodes ++ [cytoscapeNode.edge fromNode toNode label] })

/-- An invocation of a producer or of an external collaborator. -/
inductive Call where
  | validateSpartaPreconditions
  | provisionBuildID
  | Provision
  | templateParse
  | lambdaDescription (index : Nat)
  | apiDescribe
  | decoratorDescribe (index : Nat)
  | marshalIndent
  | templateExecute
deriving DecidableEq, Repr

/-- The loop of lines 24-33.  `index` is the position of the head of the list in
`hooks.ServiceDecorators`, `workflowDescInfo` the slice built so far.  The result is
the Go return pair (a nil slice is `none`) and the calls made. -/
def workflowHooksLoop (serviceName : String) :
    List ServiceDecoratorHookHandler → Nat → List DescriptionInfo →
    (Option (List DescriptionInfo) × Option Error) × List Call
  | [], _, workflowDescInfo => ((some workflowDescInfo, none), [])
  | eachServiceDecorator :: rest, index, workflowDescInfo =>
    match eachServiceDecorator.describable with
    | some describable =>
      match describable.Describe serviceName with
      | .error descInfosErr => ((none, some descInfosErr), [Call.decoratorDescribe index])
      | .ok descInfos =>
        let r := workflowHooksLoop serviceName rest (index + 1) (workflowDescInfo ++ [descInfos])
        (r.1, Call.decoratorDescribe index :: r.2)
    | none => workflowHooksLoop serviceName rest (index + 1) workflowDescInfo

/-- The function `workflowHooksDescriptionNodes` (lines 19-35). -/
def workflowHooksDescriptionNodes (serviceName : String) (hooks : Option WorkflowHooks) :
    (Option (List DescriptionInfo) × Option Error) × List Call :=
  match hooks with
  | none => ((none, none), [])
  | some hooks => workflowHooksLoop serviceName hooks.ServiceDecorators 0 []

/-- The closure `fullIconPath` (lines 100-111). -/
def fullIconPath (descriptionNode : Option DescriptionIcon) : String :=
  match descriptionNode with
  | none => "AWS-Architecture-Icons_PNG/empty-image.png"
  | some descriptionNode =>
    "AWS-Architecture-Icons_PNG/PNG Light/" ++ descriptionNode.Category ++ "/" ++ descriptionNode.Name

/-- The mutable locals of `Describe` during assembly, and the producer calls made. -/
structure describeState where
  describer : descriptionWriter
  parentMap : List String
  calls : List Call
deriving DecidableEq, Repr

/-- The loop of lines 143-162 inside the closure `writeNodes`. -/
def writeNodesLoop (parent : String) :
    List DescriptionTriplet → describeState → Option Error × describeState
  | [], st => (none, st)
  | eachDescNode :: rest, st =>
    let descDisplayInfo : DescriptionDisplayInfo :=
      match eachDescNode.DisplayInfo with
      | none => { SourceNodeColor := "", SourceIcon := none }
      | some d => d
    match st.describer.writeNodeWithParent eachDescNode.SourceNodeName
        descDisplayInfo.SourceNodeColor (fullIconPath descDisplayInfo.SourceIcon)
        parent LabelWeight.labelWeightNormal with
    | (some writeErr, dw) => (some writeErr, { st with describer := dw })
    | (none, dw) =>
      match dw.writeEdge eachDescNode.SourceNodeName eachDescNode.TargetNodeName
          eachDescNode.ArcLabel with
      | (some writeErr, dw) => (some writeErr, { st with describer := dw })
      | (none, dw) => writeNodesLoop parent rest { st with describer := dw }

/-- The closure `writeNodes` (lines 127-164).  `parentMap` is the key set of the Go
map; only key presence is ever read. -/
def writeNodes (st : describeState) (parent : String)
    (descriptionNodes : List DescriptionTriplet) : Option Error × describeState :=
  if parent ≠ "" ∧ parent ∉ st.parentMap then
    match st.describer.writeNodeWithParent parent "#FF0000" (fullIconPath none) ""
        LabelWeight.labelWeightBold with
    | (some writeErr, dw) => (some writeErr, { st with describer := dw })
    | (none, dw) =>
      writeNodesLoop parent descriptionNodes
        { st with describer := dw, parentMap := parent :: st.parentMap }
  else
    writeNodesLoop parent descriptionNodes st

/-- The loop over `lambdaAWSInfos` (lines 166-175); `index` is the position of the
head of the list. -/
def lambdaLoop (serviceName : String) :
    List LambdaAWSInfo → Nat → describeState → Option Error × describeState
  | [], _, st => (none, st)
  | eachLambda :: rest, index, st =>
    let st1 := { st with calls := st.calls ++ [Call.lambdaDescription index] }
    match eachLambda.Description serviceName with
    | .error descriptionNodesErr => (some descriptionNodesErr, st1)
    | .ok descriptionNodes =>
      match writeNodes st1 "Lambdas" descriptionNodes with
      | (some writeErr, st2) => (some writeErr, st2)
      | (none, st2) => lambdaLoop serviceName rest (index + 1) st2

/-- The gateway step (lines 181-190). -/
def apiStep (serviceName : String) (api : Option APIGateway) (st : describeState) :
    Option Error × describeState :=
  match api with
  | none => (none, st)
  | some api =>
    let st1 := { st with calls := st.calls ++ [Call.apiDescribe] }
    match api.Describe serviceName with
    | .error descriptionInfoErr => (some descriptionInfoErr, st1)
    | .ok descriptionInfo => writeNodes st1 descriptionInfo.Name descriptionInfo.Nodes

/-- The loop over `workflowDescription` (lines 196-205). -/
def workflowLoop : List DescriptionInfo → describeState → Option Error × describeState
  | [], st => (none, st)
  | eachWorkflowDesc :: rest, st =>
    let groupName := if eachWorkflowDesc.Name = "" then "WorkflowHooks" else eachWorkflowDesc.Name
    match writeNodes st groupName eachWorkflowDesc.Nodes with
    | (some workflowDescriptionErr, st1) => (some workflowDescriptionErr, st1)
    | (none, st1) => workflowLoop rest st1

/-- The hooks step (lines 192-205): dispatch, then write each group.  Ranging over
a nil slice runs the body zero times. -/
def hooksStep (serviceName : String) (workflowHooks : Option WorkflowHooks)
    (st : describeState) : Option Error × describeState :=
  let r := workflowHooksDescriptionNodes serviceName workflowHooks
  let st1 := { st with calls := st.calls ++ r.2 }
  match r.1 with
  | (_, some workflowDescriptionErr) => (some workflowDescriptionErr, st1)
  | (workflowDescription, none) => workflowLoop (workflowDescription.getD []) st1

/-- The icon path of the root node (lines 116-119). -/
def rootIconPath : String :=
  fullIconPath (some { Category := "Management & Governance",
                       Name := "AWS-CloudFormation_Stack_light-bg@4x.png" })

/-- The assembly run: lines 87-205 of `Describe`, from the creation of the writer
to the end of the hooks loop.  `nodeColorService` is a package constant declared
outside `src/`.  The result is the error `Describe` returns from this segment
(`none` when control reaches line 207) and the locals at that point. -/
def assemble (nodeColorService serviceName : String) (lambdaAWSInfos : List LambdaAWSInfo)
    (api : Option APIGateway) (workflowHooks : Option WorkflowHooks) :
    Option Error × describeState :=
  let describer : descriptionWriter := { nodes := [] }
  match describer.writeNodeWithParent serviceName nodeColorService rootIconPath ""
      LabelWeight.labelWeightBold with
  | (some writeErr, dw) => (some writeErr, { describer := dw, parentMap := [], calls := [] })
  | (none, dw) =>
    match lambdaLoop serviceName lambdaAWSInfos 0
        { describer := dw, parentMap := [], calls := [] } with
    | (some e, st) => (some e, st)
    | (none, st) =>
      match apiStep serviceName api st with
      | (some e, st) => (some e, st)
      | (none, st) => hooksStep serviceName workflowHooks st

/-- The static-site argument of `Describe`; `describe.go` only hands it to `Provision`. -/
structure S3Site where
  resources : String
deriving DecidableEq, Repr

/-- The arguments of the call to `Provision` at lines 61-76, in order; the template
buffer and the logger are not part of it. -/
structure ProvisionArgs where
  noop : Bool
  serviceName : String
  serviceDescription : String
  lambdaAWSInfos : List LambdaAWSInfo
  api : Option APIGateway
  site : Option S3Site
  s3Bucket : String
  useCGO : Bool
  inPlaceUpdates : Bool
  buildID : String
  codePipelineTrigger : String
  buildTags : String
  linkerFlags : String
  workflowHooks : Option WorkflowHooks

/-- The anonymous struct `params` of lines 213-231. -/
structure templateParams where
  SpartaVersion : String
  ServiceName : String
  ServiceDescription : String
  CloudFormationTemplate : String
  CSSFiles : List String
  JSFiles : List String
  ImageMap : List (String × String)
  CytoscapeData : String
deriving DecidableEq, Repr

/-- Everything `Describe` uses that is declared outside `src/`: package constants and
the outcomes of the collaborators it calls.  `Provision` yields the text it left in
the template buffer; `templateParse` is the outcome of parsing the embedded document
template (lines 81-84); `templateExecute` yields what `tmpl.Execute` wrote to the
output writer and the error it returned. -/
structure Externals where
  nodeColorService : String
  SpartaGitHash : String
  validateSpartaPreconditions : List LambdaAWSInfo → Option Error
  provisionBuildID : String → Except Error String
  timeNowUnix : Int
  Provision : ProvisionArgs → Except Error String
  templateParse : Option Error
  marshalIndent : List cytoscapeNode → Except Error String
  templateCSSFiles : List String
  templateJSFiles : List String
  templateImageMap : List (String × String)
  templateExecute : templateParams → List String × Option Error

/-- What one call of `Describe` did: the error it returned, the collaborators and
producers it invoked (in order), the records held by the writer when it returned,
and what the output writer received. -/
structure DescribeRun where
  err : Option Error
  calls : List Call
  nodes : List cytoscapeNode
  output : List String
deriving DecidableEq, Repr

/-- The build identifier of lines 56-59: the provisioned one, or the Unix time in
decimal when none is available. -/
def describeBuildID (ext : Externals) : String :=
  match ext.provisionBuildID "none" with
  | .ok buildID => buildID
  | .error _ => toString ext.timeNowUnix

/-- The call to `Provision` of lines 61-76 ("noop" mode, writing into the local
template buffer); the result is the buffer's text or the error. -/
def provisionCall (ext : Externals) (serviceName serviceDescription : String)
    (lambdaAWSInfos : List LambdaAWSInfo) (api : Option APIGateway) (s3Site : Option S3Site)
    (s3BucketName buildTags linkFlags : String) (workflowHooks : Option WorkflowHooks) :
    Except Error String :=
  ext.Provision
    { noop := true, serviceName := serviceName, serviceDescription := serviceDescription,
      lambdaAWSInfos := lambdaAWSInfos, api := api, site := s3Site,
      s3Bucket := s3BucketName, useCGO := false, inPlaceUpdates := false,
      buildID := describeBuildID ext, codePipelineTrigger := "", buildTags := buildTags,
      linkerFlags := linkFlags, workflowHooks := workflowHooks }

/-- The function `Describe` (lines 40-233).  The assembly segment (lines 87-205) is
`assemble`. -/
def Describe (ext : Externals) (serviceName serviceDescription : String)
    (lambdaAWSInfos : List LambdaAWSInfo) (api : Option APIGateway) (s3Site : Option S3Site)
    (s3BucketName buildTags linkFlags : String) (workflowHooks : Option WorkflowHooks) :
    DescribeRun :=
  match ext.validateSpartaPreconditions lambdaAWSInfos with
  | some validationErr =>
    { err := some validationErr, calls := [Call.validateSpartaPreconditions],
      nodes := [], output := [] }
  | none =>
    let calls1 := [Call.validateSpartaPreconditions, Call.provisionBuildID, Call.Provision]
    match provisionCall ext serviceName serviceDescription lambdaAWSInfos api s3Site
        s3BucketName buildTags linkFlags workflowHooks with
    | .error err => { err := some err, calls := calls1, nodes := [], output := [] }
    | .ok cloudFormationTemplate =>
      let calls2 := calls1 ++ [Call.templateParse]
      match ext.templateParse with
      | some err => { err := some err, calls := calls2, nodes := [], output := [] }
      | none =>
        let a := assemble ext.nodeColorService serviceName lambdaAWSInfos api workflowHooks
        let calls3 := calls2 ++ a.2.calls
        match a.1 with
        | some e => { err := some e, calls := calls3, nodes := a.2.describer.nodes, output := [] }
        | none =>
          let calls4 := calls3 ++ [Call.marshalIndent]
          match ext.marshalIndent a.2.describer.nodes with
          | .error cytoscapeBytesErr =>
            { err := some ("Failed to marshal cytoscape data: " ++ cytoscapeBytesErr),
              calls := calls4, nodes := a.2.describer.nodes, output := [] }
          | .ok cytoscapeBytes =>
            let r := ext.templateExecute
              { SpartaVersion := ext.SpartaGitHash.take 8,
                ServiceName := serviceName,
                ServiceDescription := serviceDescription,
                CloudFormationTemplate := cloudFormationTemplate,
                CSSFiles := ext.templateCSSFiles,
                JSFiles := ext.templateJSFiles,
                ImageMap := ext.templateImageMap,
                CytoscapeData := cytoscapeBytes }
            { err := r.2, calls := calls4 ++ [Call.templateExecute],
              nodes := a.2.describer.nodes, output := r.1 }

/-! ## Vocabulary of the statements -/

/-- The error of a producer call, `none` when it succeeded. -/
def errorOf {α : Type} (r : Except Error α) : Option Error :=
  match r with
  | .ok _ => none
  | .error e => some e

/-- The first error in a sequence of outcomes. -/
def firstError : List (Option Error) → Option Error
  | [] => none
  | some e :: _ => some e
  | none :: rest => firstError rest

/-- The capabilities among the service decorators, in list order. -/
def describables (hooks : Option WorkflowHooks) : List Describable :=
  match hooks with
  | none => []
  | some hooks => hooks.ServiceDecorators.filterMap (fun d => d.describable)

/-- The outcome of every producer's describe call, in pipeline order: compute units
in declared order, then the gateway, then the describable hooks in declared order. -/
def producerOutcomes (serviceName : String) (lambdaAWSInfos : List LambdaAWSInfo)
    (api : Option APIGateway) (workflowHooks : Option WorkflowHooks) : List (Option Error) :=
  lambdaAWSInfos.map (fun l => errorOf (l.Description serviceName))
    ++ api.toList.map (fun a => errorOf (a.Describe serviceName))
    ++ (describables workflowHooks).map (fun d => errorOf (d.Describe serviceName))

/-- The error of a service decorator's describe call: `none` when the decorator
lacks the capability or its call succeeded. -/
def decoratorError (serviceName : String) (d : ServiceDecoratorHookHandler) : Option Error :=
  match d.describable with
  | none => none
  | some c => errorOf (c.Describe serviceName)

/-- The triplets a compute unit returned (none when its call failed). -/
def lambdaTriplets (serviceName : String) (l : LambdaAWSInfo) : List DescriptionTriplet :=
  match l.Description serviceName with
  | .ok ts => ts
  | .error _ => []

/-- The group a describe call returned (the empty group when it failed). -/
def describedGroup (r : Except Error DescriptionInfo) : DescriptionInfo :=
  match r with
  | .ok g => g
  | .error _ => { Name := "", Nodes := [] }

/-- The label under which the assembler writes a hook's group (lines 197-200). -/
def hookGroupName (g : DescriptionInfo) : String :=
  if g.Name = "" then "WorkflowHooks" else g.Name

/-- The groups handed to `writeNodes` in a run where every producer succeeds, in
pipeline order, each with the label it is written under: one group per compute unit
under "Lambdas", the gateway's group under the name it supplies, one group per
describable hook under `hookGroupName`. -/
def pipelineGroups (serviceName : String) (lambdaAWSInfos : List LambdaAWSInfo)
    (api : Option APIGateway) (workflowHooks : Option WorkflowHooks) :
    List (String × List DescriptionTriplet) :=
  lambdaAWSInfos.map (fun l => ("Lambdas", lambdaTriplets serviceName l))
    ++ api.toList.map (fun a => ((describedGroup (a.Describe serviceName)).Name,
                                 (describedGroup (a.Describe serviceName)).Nodes))
    ++ (describables workflowHooks).map
         (fun d => (hookGroupName (describedGroup (d.Describe serviceName)),
                    (describedGroup (d.Describe serviceName)).Nodes))

/-- The triplets returned by all producers, in pipeline order. -/
def producerTriplets (serviceName : String) (lambdaAWSInfos : List LambdaAWSInfo)
    (api : Option APIGateway) (workflowHooks : Option WorkflowHooks) : List DescriptionTriplet :=
  (lambdaAWSInfos.map (lambdaTriplets serviceName)).flatten
    ++ (api.toList.map (fun a => (describedGroup (a.Describe serviceName)).Nodes)).flatten
    ++ ((describables workflowHooks).map
          (fun d => (describedGroup (d.Describe serviceName)).Nodes)).flatten

/-- The root node record (lines 114-121). -/
def rootRecord (nodeColorService serviceName : String) : cytoscapeNode :=
  .node serviceName nodeColorService
    "AWS-Architecture-Icons_PNG/PNG Light/Management & Governance/AWS-CloudFormation_Stack_light-bg@4x.png"
    "" .labelWeightBold

/-- The synthetic group node record of a label (lines 131-135). -/
def groupRecord (label : String) : cytoscapeNode :=
  .node label "#FF0000" "AWS-Architecture-Icons_PNG/empty-image.png" "" .labelWeightBold

/-- The node record of a triplet's source under a parent (lines 144-152). -/
def sourceRecord (parent : String) (t : DescriptionTriplet) : cytoscapeNode :=
  match t.DisplayInfo with
  | none => .node t.SourceNodeName "" "AWS-Architecture-Icons_PNG/empty-image.png" parent
      .labelWeightNormal
  | some d => .node t.SourceNodeName d.SourceNodeColor (fullIconPath d.SourceIcon) parent
      .labelWeightNormal

/-- The edge record of a triplet (lines 156-158). -/
def edgeRecord (t : DescriptionTriplet) : cytoscapeNode :=
  .edge t.SourceNodeName t.TargetNodeName t.ArcLabel

/-- The records of a sequence of triplets under a parent: for each triplet its source
node record, then its edge record. -/
def tripletRecords (parent : String) : List DescriptionTriplet → List cytoscapeNode
  | [] => []
  | t :: rest => sourceRecord parent t :: edgeRecord t :: tripletRecords parent rest

/-- The labels materialised after a group with label `parent` has been written. -/
def parentsAfter (parentMap : List String) (parent : String) : List String :=
  if parent ≠ "" ∧ parent ∉ parentMap then parent :: parentMap else parentMap

/-- The records of one group: its group node when the label is non-empty and new,
then the records of its triplets. -/
def groupRecords (parentMap : List String) (parent : String)
    (ts : List DescriptionTriplet) : List cytoscapeNode :=
  (if parent ≠ "" ∧ parent ∉ parentMap then [groupRecord parent] else [])
    ++ tripletRecords parent ts

/-- The records of a sequence of labelled groups, starting from the labels already
materialised. -/
def groupsRecords : List String → List (String × List DescriptionTriplet) → List cytoscapeNode
  | _, [] => []
  | parentMap, g :: rest =>
    groupRecords parentMap g.1 g.2 ++ groupsRecords (parentsAfter parentMap g.1) rest

/-- The labels materialised after a sequence of groups has been written. -/
def parentsAfterAll : List String → List (String × List DescriptionTriplet) → List String
  | parentMap, [] => parentMap
  | parentMap, g :: rest => parentsAfterAll (parentsAfter parentMap g.1) rest

/-- Whether a record is a node record. -/
def cytoscapeNode.isNode : cytoscapeNode → Bool
  | .node _ _ _ _ _ => true
  | .edge _ _ _ => false

/-- Whether a record is an edge record. -/
def cytoscapeNode.isEdge : cytoscapeNode → Bool
  | .node _ _ _ _ _ => false
  | .edge _ _ _ => true


/-- The id of a node record; an edge record has none. -/
def cytoscapeNode.nodeId? : cytoscapeNode → Option String
  | .node id _ _ _ _ => some id
  | .edge _ _ _ => none

/-- The parent field of a node record; an edge record has none. -/
def cytoscapeNode.parent? : cytoscapeNode → Option String
  | .node _ _ _ parent _ => some parent
  | .edge _ _ _ => none

/-- Whether a record is a normal-weight node record with the given id. -/
def cytoscapeNode.isNormalNodeWithId (id : String) : cytoscapeNode → Bool
  | .node nodeId _ _ _ weight => decide (nodeId = id) && decide (weight = .labelWeightNormal)
  | .edge _ _ _ => false

/-- The sequence after the root node as the spec words it: the blocks of the groups
in pipeline order; a block is the group node record, present only when the label is
non-empty and no earlier block used it, followed for each triplet in declared order
by its source node record and then its edge record.  `earlier` holds the labels of
the blocks already laid out. -/
def declaredRecords : List String → List (String × List DescriptionTriplet) → List cytoscapeNode
  | _, [] => []
  | earlier, g :: rest =>
    (if g.1 ≠ "" ∧ g.1 ∉ earlier then [groupRecord g.1] else [])
      ++ (g.2.map (fun t => [sourceRecord g.1 t, edgeRecord t])).flatten
      ++ declaredRecords (g.1 :: earlier) rest

/-- Every record of `rs` with a non-empty parent has the group node record of that
parent strictly before it: among `before` or earlier in `rs`. -/
def parentsBefore (before rs : List cytoscapeNode) : Prop :=
  ∀ x r y, rs = x ++ r :: y → ∀ p, r.parent? = some p → p ≠ "" → groupRecord p ∈ before ++ x

/-! ## Concrete inputs -/

/-- Collaborators that all succeed. -/
def sampleExternals : Externals :=
  { nodeColorService := "#720502"
    SpartaGitHash := "0123456789abcdef"
    validateSpartaPreconditions := fun _ => none
    provisionBuildID := fun _ => .ok "b1"
    timeNowUnix := 0
    Provision := fun _ => .ok "template"
    templateParse := none
    marshalIndent := fun _ => .ok "[]"
    templateCSSFiles := []
    templateJSFiles := []
    templateImageMap := []
    templateExecute := fun params => ([params.CytoscapeData], none) }

/-- The triplet of the spec's example: `UnitA -> TableX`, labelled "writes", no display
info. -/
def unitATriplet : DescriptionTriplet :=
  { SourceNodeName := "UnitA", DisplayInfo := none, ArcLabel := "writes",
    TargetNodeName := "TableX" }

/-- A compute unit that returns the single triplet `unitATriplet`. -/
def unitA : LambdaAWSInfo := { Description := fun _ => .ok [unitATriplet] }

/-- A compute unit whose description fails. -/
def brokenUnit : LambdaAWSInfo := { Description := fun _ => .error "unit failed" }

/-- A decorator without the describable capability. -/
def plainDecorator : ServiceDecoratorHookHandler := { describable := none }

/-- A describable decorator that supplies no group name. -/
def anonymousDecorator : ServiceDecoratorHookHandler :=
  { describable := some { Describe := fun _ => .ok { Name := "", Nodes := [unitATriplet] } } }

/-- A describable decorator that supplies the group name "Hooks". -/
def namedDecorator : ServiceDecoratorHookHandler :=
  { describable := some { Describe := fun _ => .ok { Name := "Hooks", Nodes := [unitATriplet] } } }

/-- A describable decorator whose describe call fails. -/
def brokenDecorator : ServiceDecoratorHookHandler :=
  { describable := some { Describe := fun _ => .error "hook failed" } }

/-- A describable decorator that reuses the compute label "Lambdas". -/
def lambdasDecorator : ServiceDecoratorHookHandler :=
  { describable := some { Describe := fun _ => .ok { Name := "Lambdas", Nodes := [unitATriplet] } } }

/-- Collaborators of a second run: no build identifier is available (the Unix time
is used instead) and provisioning yields another template text. -/
def laterExternals : Externals :=
  { sampleExternals with
    provisionBuildID := fun _ => .error "no build id"
    timeNowUnix := 1700000000
    Provision := fun args => .ok ("template for " ++ args.buildID) }

/-- A compute unit with an empty description. -/
def emptyUnit : LambdaAWSInfo := { Description := fun _ => .ok [] }

/-- A compute unit that returns `unitATriplet` twice. -/
def twiceUnitA : LambdaAWSInfo := { Description := fun _ => .ok [unitATriplet, unitATriplet] }

/-- A gateway that supplies the empty group label. -/
def unlabelledGateway : APIGateway :=
  { Describe := fun _ => .ok { Name := "", Nodes := [unitATriplet] } }

/-- A gateway that supplies the group label "API". -/
def labelledGateway : APIGateway :=
  { Describe := fun _ => .ok { Name := "API", Nodes := [unitATriplet] } }

/-- A triplet whose display info carries a color and an icon. -/
def queueTriplet : DescriptionTriplet :=
  { SourceNodeName := "Queue",
    DisplayInfo := some { SourceNodeColor := "#00FF00",
                          SourceIcon := some { Category := "Application Integration",
                                               Name := "Amazon-SQS.png" } },
    ArcLabel := "feeds", TargetNodeName := "UnitA" }

/-- A describable decorator without a group name that returns two triplets. -/
def queueDecorator : ServiceDecoratorHookHandler :=
  { describable :=
      some { Describe := fun _ => .ok { Name := "", Nodes := [queueTriplet, unitATriplet] } } }

/-! ## The loops, step by step -/

theorem rootIconPath_eq : rootIconPath =
    "AWS-Architecture-Icons_PNG/PNG Light/Management & Governance/AWS-CloudFormation_Stack_light-bg@4x.png" := by
  decide

theorem writeNodesLoop_eq (parent : String) (ts : List DescriptionTriplet) (st : describeState) :
    writeNodesLoop parent ts st
      = (none, { st with describer := { nodes := st.describer.nodes ++ tripletRecords parent ts } }) := by
  induction ts generalizing st with
  | nil => simp [writeNodesLoop, tripletRecords]
  | cons t rest ih =>
    cases hd : t.DisplayInfo <;>
      simp [writeNodesLoop, tripletRecords, sourceRecord, edgeRecord, hd, ih,
        descriptionWriter.writeNodeWithParent, descriptionWriter.writeEdge, fullIconPath]

theorem writeNodes_eq (st : describeState) (parent : String) (ts : List DescriptionTriplet) :
    writeNodes st parent ts
      = (none, { describer := { nodes := st.describer.nodes ++ groupRecords st.parentMap parent ts },
                 parentMap := parentsAfter st.parentMap parent,
                 calls := st.calls }) := by
  unfold writeNodes groupRecords parentsAfter
  by_cases h : parent ≠ "" ∧ parent ∉ st.parentMap
  · rw [if_pos h, if_pos h, if_pos h]
    simp [descriptionWriter.writeNodeWithParent, writeNodesLoop_eq, groupRecord, fullIconPath]
  · rw [if_neg h, if_neg h, if_neg h]
    simp [writeNodesLoop_eq]

theorem firstError_append (a b : List (Option Error)) :
    firstError (a ++ b) = (firstError a).orElse (fun _ => firstError b) := by
  induction a with
  | nil => simp [firstError]
  | cons x rest ih => cases x <;> simp [firstError, ih]

theorem groupsRecords_append (pm : List String) (a b : List (String × List DescriptionTriplet)) :
    groupsRecords pm (a ++ b) = groupsRecords pm a ++ groupsRecords (parentsAfterAll pm a) b := by
  induction a generalizing pm with
  | nil => simp [groupsRecords, parentsAfterAll]
  | cons g rest ih => simp [groupsRecords, parentsAfterAll, ih]

theorem parentsAfterAll_append (pm : List String) (a b : List (String × List DescriptionTriplet)) :
    parentsAfterAll pm (a ++ b) = parentsAfterAll (parentsAfterAll pm a) b := by
  induction a generalizing pm with
  | nil => simp [parentsAfterAll]
  | cons g rest ih => simp [parentsAfterAll, ih]

theorem lambdaLoop_err (serviceName : String) (ls : List LambdaAWSInfo) (index : Nat)
    (st : describeState) :
    (lambdaLoop serviceName ls index st).1
      = firstError (ls.map (fun l => errorOf (l.Description serviceName))) := by
  induction ls generalizing index st with
  | nil => simp [lambdaLoop, firstError]
  | cons l rest ih =>
    cases hd : l.Description serviceName <;>
      simp [lambdaLoop, firstError, errorOf, hd, writeNodes_eq, ih]

theorem lambdaLoop_state (serviceName : String) (ls : List LambdaAWSInfo) (index : Nat)
    (st : describeState)
    (h : firstError (ls.map (fun l => errorOf (l.Description serviceName))) = none) :
    (lambdaLoop serviceName ls index st).2.describer.nodes
        = st.describer.nodes
          ++ groupsRecords st.parentMap (ls.map (fun l => ("Lambdas", lambdaTriplets serviceName l)))
      ∧ (lambdaLoop serviceName ls index st).2.parentMap
        = parentsAfterAll st.parentMap (ls.map (fun l => ("Lambdas", lambdaTriplets serviceName l))) := by
  induction ls generalizing index st with
  | nil => simp [lambdaLoop, groupsRecords, parentsAfterAll]
  | cons l rest ih =>
    cases hd : l.Description serviceName with
    | error e => simp [firstError, errorOf, hd] at h
    | ok ts =>
      have h2 : firstError (rest.map (fun l => errorOf (l.Description serviceName))) = none := by
        simpa [firstError, errorOf, hd] using h
      simp [lambdaLoop, hd, writeNodes_eq, ih _ _ h2, groupsRecords, parentsAfterAll,
        lambdaTriplets]

theorem apiStep_err (serviceName : String) (api : Option APIGateway) (st : describeState) :
    (apiStep serviceName api st).1
      = firstError (api.toList.map (fun a => errorOf (a.Describe serviceName))) := by
  cases api with
  | none => simp [apiStep, firstError]
  | some a =>
    cases hd : a.Describe serviceName <;>
      simp [apiStep, firstError, errorOf, hd, writeNodes_eq]

theorem apiStep_state (serviceName : String) (api : Option APIGateway) (st : describeState)
    (h : firstError (api.toList.map (fun a => errorOf (a.Describe serviceName))) = none) :
    (apiStep serviceName api st).2.describer.nodes
        = st.describer.nodes
          ++ groupsRecords st.parentMap
              (api.toList.map (fun a => ((describedGroup (a.Describe serviceName)).Name,
                                         (describedGroup (a.Describe serviceName)).Nodes)))
      ∧ (apiStep serviceName api st).2.parentMap
        = parentsAfterAll st.parentMap
              (api.toList.map (fun a => ((describedGroup (a.Describe serviceName)).Name,
                                         (describedGroup (a.Describe serviceName)).Nodes))) := by
  cases api with
  | none => simp [apiStep, groupsRecords, parentsAfterAll]
  | some a =>
    cases hd : a.Describe serviceName with
    | error e => simp [firstError, errorOf, hd] at h
    | ok g => simp [apiStep, hd, writeNodes_eq, groupsRecords, parentsAfterAll, describedGroup]

theorem workflowHooksLoop_result (serviceName : String) (ds : List ServiceDecoratorHookHandler)
    (index : Nat) (acc : List DescriptionInfo) :
    (workflowHooksLoop serviceName ds index acc).1
      = match firstError (ds.map (decoratorError serviceName)) with
        | some e => (none, some e)
        | none => (some (acc ++ (ds.filterMap (fun d => d.describable)).map
                      (fun c => describedGroup (c.Describe serviceName))), none) := by
  induction ds generalizing index acc with
  | nil => simp [workflowHooksLoop, firstError]
  | cons d rest ih =>
    cases hc : d.describable with
    | none => simp [workflowHooksLoop, hc, firstError, decoratorError, ih]
    | some c =>
      cases hd : c.Describe serviceName with
      | error e => simp [workflowHooksLoop, hc, hd, firstError, decoratorError, errorOf]
      | ok g =>
        simp [workflowHooksLoop, hc, hd, firstError, decoratorError, errorOf, ih, describedGroup]

theorem workflowLoop_eq (gs : List DescriptionInfo) (st : describeState) :
    workflowLoop gs st
      = (none, { describer := { nodes := st.describer.nodes
                    ++ groupsRecords st.parentMap (gs.map (fun g => (hookGroupName g, g.Nodes))) },
                 parentMap := parentsAfterAll st.parentMap
                    (gs.map (fun g => (hookGroupName g, g.Nodes))),
                 calls := st.calls }) := by
  induction gs generalizing st with
  | nil => simp [workflowLoop, groupsRecords, parentsAfterAll]
  | cons g rest ih =>
    simp [workflowLoop, writeNodes_eq, ih, groupsRecords, parentsAfterAll, hookGroupName]

theorem firstError_decorators (serviceName : String) (ds : List ServiceDecoratorHookHandler) :
    firstError (ds.map (decoratorError serviceName))
      = firstError ((ds.filterMap (fun d => d.describable)).map
          (fun d => errorOf (d.Describe serviceName))) := by
  induction ds with
  | nil => simp [firstError]
  | cons d rest ih =>
    cases hc : d.describable with
    | none => simp [firstError, decoratorError, hc, ih]
    | some c =>
      cases hd : errorOf (c.Describe serviceName) <;>
        simp [firstError, decoratorError, hc, hd, ih]

theorem workflowHooksDescriptionNodes_result (serviceName : String) (hooks : Option WorkflowHooks) :
    (workflowHooksDescriptionNodes serviceName hooks).1
      = match firstError ((describables hooks).map (fun d => errorOf (d.Describe serviceName))) with
        | some e => (none, some e)
        | none =>
          (hooks.map (fun _ => (describables hooks).map
              (fun c => describedGroup (c.Describe serviceName))), none) := by
  cases hooks with
  | none => simp [workflowHooksDescriptionNodes, describables, firstError]
  | some h =>
    simp only [workflowHooksDescriptionNodes, describables, workflowHooksLoop_result,
      firstError_decorators]
    cases firstError ((h.ServiceDecorators.filterMap (fun d => d.describable)).map
        (fun d => errorOf (d.Describe serviceName))) <;> simp

theorem hooksStep_err (serviceName : String) (hooks : Option WorkflowHooks) (st : describeState) :
    (hooksStep serviceName hooks st).1
      = firstError ((describables hooks).map (fun d => errorOf (d.Describe serviceName))) := by
  unfold hooksStep
  simp only [workflowHooksDescriptionNodes_result]
  cases firstError ((describables hooks).map (fun d => errorOf (d.Describe serviceName))) <;>
    simp [workflowLoop_eq]

theorem hooksStep_state (serviceName : String) (hooks : Option WorkflowHooks) (st : describeState)
    (h : firstError ((describables hooks).map (fun d => errorOf (d.Describe serviceName))) = none) :
    (hooksStep serviceName hooks st).2.describer.nodes
        = st.describer.nodes
          ++ groupsRecords st.parentMap ((describables hooks).map
              (fun d => (hookGroupName (describedGroup (d.Describe serviceName)),
                         (describedGroup (d.Describe serviceName)).Nodes)))
      ∧ (hooksStep serviceName hooks st).2.parentMap
        = parentsAfterAll st.parentMap ((describables hooks).map
              (fun d => (hookGroupName (describedGroup (d.Describe serviceName)),
                         (describedGroup (d.Describe serviceName)).Nodes))) := by
  unfold hooksStep
  simp only [workflowHooksDescriptionNodes_result, h]
  cases hooks with
  | none => simp [workflowLoop_eq, describables, groupsRecords, parentsAfterAll]
  | some hk => simp [workflowLoop_eq, describables, List.map_map, Function.comp_def]

theorem firstError_append_none (a b : List (Option Error)) :
    firstError (a ++ b) = none ↔ firstError a = none ∧ firstError b = none := by
  rw [firstError_append]
  cases firstError a <;> simp

/-- The error of the assembly segment is the first producer error in pipeline order. -/
theorem assemble_err (c serviceName : String) (ls : List LambdaAWSInfo)
    (api : Option APIGateway) (hooks : Option WorkflowHooks) :
    (assemble c serviceName ls api hooks).1
      = firstError (producerOutcomes serviceName ls api hooks) := by
  unfold assemble producerOutcomes
  simp only [descriptionWriter.writeNodeWithParent, firstError_append]
  rw [← lambdaLoop_err serviceName ls 0
    { describer := { nodes := [] ++ [cytoscapeNode.node serviceName c rootIconPath ""
        LabelWeight.labelWeightBold] }, parentMap := [], calls := [] }]
  rcases hl : lambdaLoop serviceName ls 0
    { describer := { nodes := [] ++ [cytoscapeNode.node serviceName c rootIconPath ""
        LabelWeight.labelWeightBold] }, parentMap := [], calls := [] } with ⟨e1, st1⟩
  cases e1 with
  | some e => simp
  | none =>
    simp only [Option.orElse]
    rw [← apiStep_err serviceName api st1]
    rcases ha : apiStep serviceName api st1 with ⟨e2, st2⟩
    cases e2 with
    | some e => simp
    | none => simp [hooksStep_err]

/-- The records of a successful assembly run: the root record, then the records of
the pipeline groups. -/
theorem assemble_nodes (c serviceName : String) (ls : List LambdaAWSInfo)
    (api : Option APIGateway) (hooks : Option WorkflowHooks)
    (h : (assemble c serviceName ls api hooks).1 = none) :
    (assemble c serviceName ls api hooks).2.describer.nodes
      = rootRecord c serviceName
          :: groupsRecords [] (pipelineGroups serviceName ls api hooks) := by
  have he := assemble_err c serviceName ls api hooks
  rw [h] at he
  unfold producerOutcomes at he
  obtain ⟨h12, h3⟩ := (firstError_append_none _ _).mp he.symm
  obtain ⟨h1, h2⟩ := (firstError_append_none _ _).mp h12
  unfold assemble
  simp only [descriptionWriter.writeNodeWithParent]
  have e1 := lambdaLoop_err serviceName ls 0
    { describer := { nodes := [] ++ [cytoscapeNode.node serviceName c rootIconPath ""
        LabelWeight.labelWeightBold] }, parentMap := [], calls := [] }
  obtain ⟨n1, p1⟩ := lambdaLoop_state serviceName ls 0
    { describer := { nodes := [] ++ [cytoscapeNode.node serviceName c rootIconPath ""
        LabelWeight.labelWeightBold] }, parentMap := [], calls := [] } h1
  rw [h1] at e1
  rcases hl : lambdaLoop serviceName ls 0
    { describer := { nodes := [] ++ [cytoscapeNode.node serviceName c rootIconPath ""
        LabelWeight.labelWeightBold] }, parentMap := [], calls := [] } with ⟨x1, st1⟩
  rw [hl] at e1 n1 p1
  simp only at e1 n1 p1
  subst e1
  have e2 := apiStep_err serviceName api st1
  obtain ⟨n2, p2⟩ := apiStep_state serviceName api st1 h2
  rw [h2] at e2
  rcases ha : apiStep serviceName api st1 with ⟨x2, st2⟩
  rw [ha] at e2 n2 p2
  simp only at e2 n2 p2
  subst e2
  obtain ⟨n3, -⟩ := hooksStep_state serviceName hooks st2 h3
  simp only [hl, ha, n3, n2, n1, p2, p1, pipelineGroups, groupsRecords_append,
    parentsAfterAll_append, rootRecord, rootIconPath_eq]
  simp

theorem decoratorError_eq_some_iff (serviceName : String) (d : ServiceDecoratorHookHandler)
    (e : Error) :
    decoratorError serviceName d = some e
      ↔ ∃ c, d.describable = some c ∧ c.Describe serviceName = .error e := by
  unfold decoratorError
  cases hc : d.describable with
  | none => simp
  | some c => cases hd : c.Describe serviceName <;> simp [errorOf, hd]

theorem decoratorError_eq_none_iff (serviceName : String) (d : ServiceDecoratorHookHandler) :
    decoratorError serviceName d = none
      ↔ ∀ c, d.describable = some c → ∃ g, c.Describe serviceName = .ok g := by
  unfold decoratorError
  cases hc : d.describable with
  | none => simp
  | some c => cases hd : c.Describe serviceName <;> simp [errorOf, hd]

theorem exists_first_failure (serviceName : String) (ds : List ServiceDecoratorHookHandler)
    (h : ∃ d ∈ ds, decoratorError serviceName d ≠ none) :
    ∃ pre d post e, ds = pre ++ d :: post
      ∧ (∀ x ∈ pre, decoratorError serviceName x = none)
      ∧ decoratorError serviceName d = some e := by
  induction ds with
  | nil => simp at h
  | cons x rest ih =>
    cases hx : decoratorError serviceName x with
    | some e => exact ⟨[], x, rest, e, rfl, by simp, hx⟩
    | none =>
      have h2 : ∃ d ∈ rest, decoratorError serviceName d ≠ none := by
        obtain ⟨d, hd, hne⟩ := h
        rcases List.mem_cons.mp hd with rfl | hr
        · exact absurd hx hne
        · exact ⟨d, hr, hne⟩
      obtain ⟨pre, d, post, e, hds, hpre, hd⟩ := ih h2
      refine ⟨x :: pre, d, post, e, by simp [hds], ?_, hd⟩
      intro y hy
      rcases List.mem_cons.mp hy with rfl | hr
      · exact hx
      · exact hpre y hr

theorem workflowHooksLoop_at_failure (serviceName : String)
    (pre : List ServiceDecoratorHookHandler) (d : ServiceDecoratorHookHandler)
    (post : List ServiceDecoratorHookHandler) (e : Error) (index : Nat)
    (acc : List DescriptionInfo)
    (hpre : ∀ x ∈ pre, decoratorError serviceName x = none)
    (hd : decoratorError serviceName d = some e) :
    (workflowHooksLoop serviceName (pre ++ d :: post) index acc).1 = (none, some e)
      ∧ (∀ c ∈ (workflowHooksLoop serviceName (pre ++ d :: post) index acc).2,
          ∃ j, c = Call.decoratorDescribe j ∧ index ≤ j ∧ j ≤ index + pre.length)
      ∧ Call.decoratorDescribe (index + pre.length)
          ∈ (workflowHooksLoop serviceName (pre ++ d :: post) index acc).2 := by
  induction pre generalizing index acc with
  | nil =>
    obtain ⟨c, hc, hcd⟩ := (decoratorError_eq_some_iff serviceName d e).mp hd
    simp [workflowHooksLoop, hc, hcd]
  | cons x rest ih =>
    have hx := hpre x (by simp)
    have hrest : ∀ y ∈ rest, decoratorError serviceName y = none :=
      fun y hy => hpre y (by simp [hy])
    cases hc : x.describable with
    | none =>
      obtain ⟨h1, h2, h3⟩ := ih (index + 1) acc hrest
      simp only [List.cons_append, workflowHooksLoop, hc, List.length_cons]
      refine ⟨h1, ?_, ?_⟩
      · intro c hcm
        obtain ⟨j, hj, hlo, hhi⟩ := h2 c hcm
        exact ⟨j, hj, by omega, by omega⟩
      · have : index + (rest.length + 1) = index + 1 + rest.length := by omega
        rw [this]; exact h3
    | some cx =>
      obtain ⟨g, hg⟩ := (decoratorError_eq_none_iff serviceName x).mp hx cx hc
      obtain ⟨h1, h2, h3⟩ := ih (index + 1) (acc ++ [g]) hrest
      simp only [List.cons_append, workflowHooksLoop, hc, hg, List.length_cons]
      refine ⟨h1, ?_, ?_⟩
      · intro c hcm
        rcases List.mem_cons.mp hcm with rfl | hr
        · exact ⟨index, rfl, le_refl _, by omega⟩
        · obtain ⟨j, hj, hlo, hhi⟩ := h2 c hr
          exact ⟨j, hj, by omega, by omega⟩
      · have : index + (rest.length + 1) = index + 1 + rest.length := by omega
        rw [this]; exact List.mem_cons_of_mem _ h3

theorem forall₂_describedGroup (serviceName : String) (cs : List Describable)
    (h : ∀ c ∈ cs, ∃ g, c.Describe serviceName = .ok g) :
    List.Forall₂ (fun c g => c.Describe serviceName = .ok g) cs
      (cs.map (fun c => describedGroup (c.Describe serviceName))) := by
  induction cs with
  | nil => exact List.Forall₂.nil
  | cons c rest ih =>
    obtain ⟨g, hg⟩ := h c (by simp)
    refine List.Forall₂.cons ?_ (ih (fun x hx => h x (by simp [hx])))
    simp [hg, describedGroup]

/-! ## The records of a run -/

theorem producerTriplets_eq (serviceName : String) (ls : List LambdaAWSInfo)
    (api : Option APIGateway) (hooks : Option WorkflowHooks) :
    producerTriplets serviceName ls api hooks
      = ((pipelineGroups serviceName ls api hooks).map Prod.snd).flatten := by
  simp [producerTriplets, pipelineGroups, List.map_map, Function.comp_def]

theorem mem_tripletRecords (parent : String) (ts : List DescriptionTriplet) (r : cytoscapeNode) :
    r ∈ tripletRecords parent ts ↔ ∃ t ∈ ts, r = sourceRecord parent t ∨ r = edgeRecord t := by
  induction ts with
  | nil => simp [tripletRecords]
  | cons t rest ih =>
    simp only [tripletRecords, List.mem_cons, ih, exists_eq_or_imp]
    constructor
    · rintro (h | h | h)
      · exact Or.inl (Or.inl h)
      · exact Or.inl (Or.inr h)
      · exact Or.inr h
    · rintro ((h | h) | h)
      · exact Or.inl h
      · exact Or.inr (Or.inl h)
      · exact Or.inr (Or.inr h)

theorem mem_parentsAfter (pm : List String) (parent label : String) :
    label ∈ parentsAfter pm parent ↔ label ∈ pm ∨ (label = parent ∧ label ≠ "") := by
  unfold parentsAfter
  by_cases h : parent ≠ "" ∧ parent ∉ pm
  · rw [if_pos h, List.mem_cons]
    constructor
    · rintro (rfl | hm)
      · exact Or.inr ⟨rfl, h.1⟩
      · exact Or.inl hm
    · rintro (hm | ⟨rfl, -⟩)
      · exact Or.inr hm
      · exact Or.inl rfl
  · rw [if_neg h]
    constructor
    · exact Or.inl
    · rintro (hm | ⟨rfl, hne⟩)
      · exact hm
      · by_contra hc
        exact h ⟨hne, hc⟩

theorem mem_groupsRecords (pm : List String) (gs : List (String × List DescriptionTriplet))
    (r : cytoscapeNode) :
    r ∈ groupsRecords pm gs
      ↔ (∃ label, r = groupRecord label ∧ label ≠ "" ∧ label ∉ pm ∧ label ∈ gs.map Prod.fst)
        ∨ (∃ g ∈ gs, ∃ t ∈ g.2, r = sourceRecord g.1 t ∨ r = edgeRecord t) := by
  induction gs generalizing pm with
  | nil => simp [groupsRecords]
  | cons g rest ih =>
    simp only [groupsRecords, groupRecords, List.mem_append, ih, mem_tripletRecords,
      List.map_cons, List.mem_cons, exists_eq_or_imp, mem_parentsAfter]
    constructor
    · rintro ((hg | ht) | (⟨label, hr, hne, hnm, hl⟩ | hrest))
      · by_cases hc : g.1 ≠ "" ∧ g.1 ∉ pm
        · rw [if_pos hc] at hg
          exact Or.inl ⟨g.1, by simpa using hg, hc.1, hc.2, Or.inl rfl⟩
        · rw [if_neg hc] at hg
          simp at hg
      · exact Or.inr (Or.inl ht)
      · exact Or.inl ⟨label, hr, hne, fun hm => hnm (Or.inl hm), Or.inr hl⟩
      · exact Or.inr (Or.inr hrest)
    · rintro (⟨label, hr, hne, hnm, hl⟩ | (ht | hrest))
      · by_cases heq : label = g.1
        · subst heq
          left; left
          rw [if_pos ⟨hne, hnm⟩]
          simp [hr]
        · rcases hl with hl | hl
          · exact absurd hl heq
          · right; left
            refine ⟨label, hr, hne, ?_, hl⟩
            rintro (hm | ⟨h1, -⟩)
            · exact hnm hm
            · exact heq h1
      · exact Or.inl (Or.inr ht)
      · exact Or.inr (Or.inr hrest)

theorem count_groupRecord_tripletRecords (label parent : String) (ts : List DescriptionTriplet) :
    (tripletRecords parent ts).count (groupRecord label) = 0 := by
  rw [List.count_eq_zero]
  intro hm
  obtain ⟨t, -, h | h⟩ := (mem_tripletRecords parent ts _).mp hm
  · cases hd : t.DisplayInfo <;> simp [groupRecord, sourceRecord, hd] at h
  · simp [groupRecord, edgeRecord] at h

theorem groupRecord_injective (a b : String) (h : groupRecord a = groupRecord b) : a = b := by
  simpa [groupRecord] using h

theorem count_groupRecord_head (label parent : String) (pm : List String) :
    (if parent ≠ "" ∧ parent ∉ pm then [groupRecord parent] else []).count (groupRecord label)
      = if label = parent ∧ label ≠ "" ∧ label ∉ pm then 1 else 0 := by
  by_cases heq : label = parent
  · subst heq
    by_cases hc : label ≠ "" ∧ label ∉ pm
    · rw [if_pos hc, if_pos ⟨rfl, hc⟩]; simp
    · rw [if_neg hc, if_neg (fun h => hc h.2)]; simp
  · have hr : (if label = parent ∧ label ≠ "" ∧ label ∉ pm then 1 else 0) = 0 :=
      if_neg (fun h => heq h.1)
    rw [hr]
    by_cases hc : parent ≠ "" ∧ parent ∉ pm
    · rw [if_pos hc]
      have : groupRecord parent ≠ groupRecord label :=
        fun h => heq (groupRecord_injective _ _ h).symm
      simp [List.count_cons, this]
    · rw [if_neg hc]; simp

theorem count_groupRecord_groupsRecords (label : String) (pm : List String)
    (gs : List (String × List DescriptionTriplet)) :
    (groupsRecords pm gs).count (groupRecord label)
      = if label ≠ "" ∧ label ∉ pm ∧ label ∈ gs.map Prod.fst then 1 else 0 := by
  induction gs generalizing pm with
  | nil => simp [groupsRecords]
  | cons g rest ih =>
    simp only [groupsRecords, groupRecords, List.count_append, ih, count_groupRecord_head,
      count_groupRecord_tripletRecords, List.map_cons, List.mem_cons, mem_parentsAfter]
    split_ifs <;> first | rfl | (exfalso; tauto)

theorem countP_isEdge_tripletRecords (parent : String) (ts : List DescriptionTriplet) :
    (tripletRecords parent ts).countP cytoscapeNode.isEdge = ts.length := by
  induction ts with
  | nil => simp [tripletRecords]
  | cons t rest ih =>
    cases hd : t.DisplayInfo <;>
      simp [tripletRecords, sourceRecord, edgeRecord, hd, cytoscapeNode.isEdge, ih]

theorem countP_isNode_tripletRecords (parent : String) (ts : List DescriptionTriplet) :
    (tripletRecords parent ts).countP cytoscapeNode.isNode = ts.length := by
  induction ts with
  | nil => simp [tripletRecords]
  | cons t rest ih =>
    cases hd : t.DisplayInfo <;>
      simp [tripletRecords, sourceRecord, edgeRecord, hd, cytoscapeNode.isNode, ih]

theorem countP_isEdge_groupsRecords (pm : List String)
    (gs : List (String × List DescriptionTriplet)) :
    (groupsRecords pm gs).countP cytoscapeNode.isEdge = ((gs.map Prod.snd).flatten).length := by
  induction gs generalizing pm with
  | nil => simp [groupsRecords]
  | cons g rest ih =>
    simp only [groupsRecords, groupRecords, List.countP_append, ih,
      countP_isEdge_tripletRecords, List.map_cons, List.flatten_cons, List.length_append]
    by_cases hc : g.1 ≠ "" ∧ g.1 ∉ pm
    · rw [if_pos hc]; simp [groupRecord, cytoscapeNode.isEdge]
    · rw [if_neg hc]; simp

theorem countP_isNode_groupsRecords (pm : List String)
    (gs : List (String × List DescriptionTriplet)) :
    ((gs.map Prod.snd).flatten).length ≤ (groupsRecords pm gs).countP cytoscapeNode.isNode := by
  induction gs generalizing pm with
  | nil => simp [groupsRecords]
  | cons g rest ih =>
    simp only [groupsRecords, groupRecords, List.countP_append,
      countP_isNode_tripletRecords, List.map_cons, List.flatten_cons, List.length_append]
    have := ih (parentsAfter pm g.1)
    omega

theorem mem_producerTriplets (serviceName : String) (ls : List LambdaAWSInfo)
    (api : Option APIGateway) (hooks : Option WorkflowHooks) (t : DescriptionTriplet) :
    t ∈ producerTriplets serviceName ls api hooks
      ↔ ∃ g ∈ pipelineGroups serviceName ls api hooks, t ∈ g.2 := by
  rw [producerTriplets_eq, List.mem_flatten]
  constructor
  · rintro ⟨l, hl, ht⟩
    obtain ⟨g, hg, rfl⟩ := List.mem_map.mp hl
    exact ⟨g, hg, ht⟩
  · rintro ⟨g, hg, ht⟩
    exact ⟨g.2, List.mem_map.mpr ⟨g, hg, rfl⟩, ht⟩

theorem nodeId?_sourceRecord (parent : String) (t : DescriptionTriplet) :
    (sourceRecord parent t).nodeId? = some t.SourceNodeName := by
  cases hd : t.DisplayInfo <;> simp [sourceRecord, hd, cytoscapeNode.nodeId?]

theorem parent?_sourceRecord (parent : String) (t : DescriptionTriplet) :
    (sourceRecord parent t).parent? = some parent := by
  cases hd : t.DisplayInfo <;> simp [sourceRecord, hd, cytoscapeNode.parent?]

/-- The ids of the node records of a successful assembly run. -/
theorem assemble_nodeId_iff (c serviceName : String) (ls : List LambdaAWSInfo)
    (api : Option APIGateway) (hooks : Option WorkflowHooks)
    (h : (assemble c serviceName ls api hooks).1 = none) (id : String) :
    (∃ r ∈ (assemble c serviceName ls api hooks).2.describer.nodes, r.nodeId? = some id)
      ↔ id = serviceName
        ∨ (id ≠ "" ∧ id ∈ (pipelineGroups serviceName ls api hooks).map Prod.fst)
        ∨ ∃ t ∈ producerTriplets serviceName ls api hooks, t.SourceNodeName = id := by
  rw [assemble_nodes _ _ _ _ _ h]
  constructor
  · rintro ⟨r, hr, hid⟩
    rcases List.mem_cons.mp hr with rfl | hr
    · left
      simpa [rootRecord, cytoscapeNode.nodeId?] using hid.symm
    · rcases (mem_groupsRecords _ _ _).mp hr with ⟨label, rfl, hne, -, hl⟩ | ⟨g, hg, t, ht, hs | he⟩
      · right; left
        have : label = id := by simpa [groupRecord, cytoscapeNode.nodeId?] using hid
        subst this
        exact ⟨hne, hl⟩
      · right; right
        subst hs
        rw [nodeId?_sourceRecord] at hid
        exact ⟨t, (mem_producerTriplets _ _ _ _ _).mpr ⟨g, hg, ht⟩, by simpa using hid⟩
      · subst he
        simp [edgeRecord, cytoscapeNode.nodeId?] at hid
  · rintro (rfl | ⟨hne, hl⟩ | ⟨t, ht, rfl⟩)
    · exact ⟨_, List.mem_cons_self _ _, by simp [rootRecord, cytoscapeNode.nodeId?]⟩
    · refine ⟨groupRecord id, List.mem_cons_of_mem _ ?_, by simp [groupRecord, cytoscapeNode.nodeId?]⟩
      exact (mem_groupsRecords _ _ _).mpr (Or.inl ⟨id, rfl, hne, List.not_mem_nil _, hl⟩)
    · obtain ⟨g, hg, htg⟩ := (mem_producerTriplets _ _ _ _ _).mp ht
      refine ⟨sourceRecord g.1 t, List.mem_cons_of_mem _ ?_, nodeId?_sourceRecord _ _⟩
      exact (mem_groupsRecords _ _ _).mpr (Or.inr ⟨g, hg, t, htg, Or.inl rfl⟩)

theorem assemble_no_hooks (c serviceName : String) (ls : List LambdaAWSInfo)
    (api : Option APIGateway) (hooks : Option WorkflowHooks)
    (hhooks : hooks = none ∨ hooks = some { ServiceDecorators := [] }) :
    assemble c serviceName ls api hooks = assemble c serviceName ls api none := by
  rcases hhooks with rfl | rfl
  · rfl
  · unfold assemble
    simp only [hooksStep, workflowHooksDescriptionNodes, workflowHooksLoop, workflowLoop,
      Option.getD, List.append_nil]

/-- Once `Describe` is past validation, provisioning and template parsing, the
records it holds when it returns are those of the assembly segment. -/
theorem Describe_nodes (ext : Externals) (serviceName serviceDescription : String)
    (lambdaAWSInfos : List LambdaAWSInfo) (api : Option APIGateway) (s3Site : Option S3Site)
    (s3BucketName buildTags linkFlags : String) (workflowHooks : Option WorkflowHooks)
    (cloudFormationTemplate : String)
    (hvalid : ext.validateSpartaPreconditions lambdaAWSInfos = none)
    (hprov : provisionCall ext serviceName serviceDescription lambdaAWSInfos api s3Site
        s3BucketName buildTags linkFlags workflowHooks = .ok cloudFormationTemplate)
    (hparse : ext.templateParse = none) :
    (Describe ext serviceName serviceDescription lambdaAWSInfos api s3Site s3BucketName
        buildTags linkFlags workflowHooks).nodes
      = (assemble ext.nodeColorService serviceName lambdaAWSInfos api
          workflowHooks).2.describer.nodes := by
  unfold Describe
  simp only [hvalid, hprov, hparse]
  cases (assemble ext.nodeColorService serviceName lambdaAWSInfos api workflowHooks).1 with
  | some e => rfl
  | none =>
    cases ext.marshalIndent
      (assemble ext.nodeColorService serviceName lambdaAWSInfos api
        workflowHooks).2.describer.nodes <;> rfl

/-! ## Dependence on the producers' results only -/

theorem lambdaLoop_congr (serviceName : String) (ls1 ls2 : List LambdaAWSInfo) (index : Nat)
    (st : describeState)
    (h : ls1.map (fun l => l.Description serviceName)
        = ls2.map (fun l => l.Description serviceName)) :
    lambdaLoop serviceName ls1 index st = lambdaLoop serviceName ls2 index st := by
  induction ls1 generalizing ls2 index st with
  | nil =>
    cases ls2 with
    | nil => rfl
    | cons b rest2 => simp at h
  | cons a rest1 ih =>
    cases ls2 with
    | nil => simp at h
    | cons b rest2 =>
      simp only [List.map_cons, List.cons.injEq] at h
      obtain ⟨hab, hrest⟩ := h
      simp only [lambdaLoop, hab]
      cases b.Description serviceName with
      | error e => rfl
      | ok ts =>
        simp only [writeNodes_eq]
        exact ih rest2 _ _ hrest

theorem apiStep_congr (serviceName : String) (api1 api2 : Option APIGateway)
    (st : describeState)
    (h : api1.map (fun a => a.Describe serviceName)
        = api2.map (fun a => a.Describe serviceName)) :
    apiStep serviceName api1 st = apiStep serviceName api2 st := by
  cases api1 with
  | none =>
    cases api2 with
    | none => rfl
    | some b => simp at h
  | some a =>
    cases api2 with
    | none => simp at h
    | some b =>
      simp only [Option.map_some', Option.some.injEq] at h
      simp only [apiStep, h]

theorem hooksStep_congr (serviceName : String) (hooks1 hooks2 : Option WorkflowHooks)
    (st : describeState)
    (h : (describables hooks1).map (fun d => d.Describe serviceName)
        = (describables hooks2).map (fun d => d.Describe serviceName)) :
    (hooksStep serviceName hooks1 st).1 = (hooksStep serviceName hooks2 st).1
      ∧ (hooksStep serviceName hooks1 st).2.describer.nodes
        = (hooksStep serviceName hooks2 st).2.describer.nodes := by
  have herr : (describables hooks1).map (fun d => errorOf (d.Describe serviceName))
      = (describables hooks2).map (fun d => errorOf (d.Describe serviceName)) := by
    have := congrArg (List.map errorOf) h
    simpa [List.map_map, Function.comp_def] using this
  have hgrp : (describables hooks1).map (fun d => describedGroup (d.Describe serviceName))
      = (describables hooks2).map (fun d => describedGroup (d.Describe serviceName)) := by
    have := congrArg (List.map describedGroup) h
    simpa [List.map_map, Function.comp_def] using this
  unfold hooksStep
  simp only [workflowHooksDescriptionNodes_result, herr]
  cases firstError ((describables hooks2).map (fun d => errorOf (d.Describe serviceName))) with
  | some e => exact ⟨rfl, rfl⟩
  | none =>
    have hd1 : (hooks1.map (fun _ => (describables hooks2).map
        (fun c => describedGroup (c.Describe serviceName)))).getD []
          = (describables hooks2).map (fun c => describedGroup (c.Describe serviceName)) := by
      cases hooks1 with
      | none => simpa [describables] using hgrp
      | some h1 => simp
    have hd2 : (hooks2.map (fun _ => (describables hooks2).map
        (fun c => describedGroup (c.Describe serviceName)))).getD []
          = (describables hooks2).map (fun c => describedGroup (c.Describe serviceName)) := by
      cases hooks2 <;> simp [describables]
    simp only [hgrp, hd1, hd2, workflowLoop_eq]
    exact ⟨trivial, trivial⟩

/-- The error and the records of the assembly segment depend on the producers only
through the results of their describe calls. -/
theorem assemble_congr (c serviceName : String) (ls1 ls2 : List LambdaAWSInfo)
    (api1 api2 : Option APIGateway) (hooks1 hooks2 : Option WorkflowHooks)
    (hl : ls1.map (fun l => l.Description serviceName)
        = ls2.map (fun l => l.Description serviceName))
    (ha : api1.map (fun a => a.Describe serviceName)
        = api2.map (fun a => a.Describe serviceName))
    (hh : (describables hooks1).map (fun d => d.Describe serviceName)
        = (describables hooks2).map (fun d => d.Describe serviceName)) :
    (assemble c serviceName ls1 api1 hooks1).1 = (assemble c serviceName ls2 api2 hooks2).1
      ∧ (assemble c serviceName ls1 api1 hooks1).2.describer.nodes
        = (assemble c serviceName ls2 api2 hooks2).2.describer.nodes := by
  unfold assemble
  simp only [descriptionWriter.writeNodeWithParent]
  rw [lambdaLoop_congr serviceName ls1 ls2 0 _ hl]
  rcases lambdaLoop serviceName ls2 0
    { describer := { nodes := [] ++ [cytoscapeNode.node serviceName c rootIconPath ""
        LabelWeight.labelWeightBold] }, parentMap := [], calls := [] } with ⟨e1, st1⟩
  cases e1 with
  | some e => exact ⟨rfl, rfl⟩
  | none =>
    simp only
    rw [apiStep_congr serviceName api1 api2 st1 ha]
    rcases apiStep serviceName api2 st1 with ⟨e2, st2⟩
    cases e2 with
    | some e => exact ⟨rfl, rfl⟩
    | none => exact hooksStep_congr serviceName hooks1 hooks2 st2 hh

/-! ## Leaf records and declared order -/

theorem countP_isNormalNodeWithId_tripletRecords (id parent : String)
    (ts : List DescriptionTriplet) :
    (tripletRecords parent ts).countP (cytoscapeNode.isNormalNodeWithId id)
      = ts.countP (fun t => decide (t.SourceNodeName = id)) := by
  induction ts with
  | nil => simp [tripletRecords]
  | cons t rest ih =>
    have hs : cytoscapeNode.isNormalNodeWithId id (sourceRecord parent t)
        = decide (t.SourceNodeName = id) := by
      cases hd : t.DisplayInfo <;> simp [sourceRecord, hd, cytoscapeNode.isNormalNodeWithId]
    have he : cytoscapeNode.isNormalNodeWithId id (edgeRecord t) = false := rfl
    simp only [tripletRecords, List.countP_cons, hs, he, ih]
    simp

theorem countP_isNormalNodeWithId_groupsRecords (id : String) (pm : List String)
    (gs : List (String × List DescriptionTriplet)) :
    (groupsRecords pm gs).countP (cytoscapeNode.isNormalNodeWithId id)
      = ((gs.map Prod.snd).flatten).countP (fun t => decide (t.SourceNodeName = id)) := by
  induction gs generalizing pm with
  | nil => simp [groupsRecords]
  | cons g rest ih =>
    simp only [groupsRecords, groupRecords, List.countP_append, ih,
      countP_isNormalNodeWithId_tripletRecords, List.map_cons, List.flatten_cons]
    by_cases hc : g.1 ≠ "" ∧ g.1 ∉ pm
    · rw [if_pos hc]; simp [groupRecord, cytoscapeNode.isNormalNodeWithId]
    · rw [if_neg hc]; simp

theorem tripletRecords_eq_flatten (parent : String) (ts : List DescriptionTriplet) :
    tripletRecords parent ts
      = (ts.map (fun t => [sourceRecord parent t, edgeRecord t])).flatten := by
  induction ts with
  | nil => rfl
  | cons t rest ih => simp [tripletRecords, ih]

theorem groupsRecords_eq_declaredRecords (pm earlier : List String)
    (gs : List (String × List DescriptionTriplet))
    (h : ∀ label, label ≠ "" → (label ∈ pm ↔ label ∈ earlier)) :
    groupsRecords pm gs = declaredRecords earlier gs := by
  induction gs generalizing pm earlier with
  | nil => rfl
  | cons g rest ih =>
    have hcond : (g.1 ≠ "" ∧ g.1 ∉ pm) ↔ (g.1 ≠ "" ∧ g.1 ∉ earlier) := by
      constructor
      · rintro ⟨h1, h2⟩; exact ⟨h1, fun hm => h2 ((h _ h1).mpr hm)⟩
      · rintro ⟨h1, h2⟩; exact ⟨h1, fun hm => h2 ((h _ h1).mp hm)⟩
    have hnext : ∀ label, label ≠ "" →
        (label ∈ parentsAfter pm g.1 ↔ label ∈ g.1 :: earlier) := by
      intro label hne
      rw [mem_parentsAfter, List.mem_cons, h label hne]
      constructor
      · rintro (hm | ⟨heq, -⟩)
        · exact Or.inr hm
        · exact Or.inl heq
      · rintro (heq | hm)
        · exact Or.inr ⟨heq, hne⟩
        · exact Or.inl hm
    simp only [groupsRecords, groupRecords, declaredRecords, tripletRecords_eq_flatten,
      ih _ _ hnext, if_congr hcond rfl rfl, List.append_assoc]

/-! ## Parents before children -/

theorem parentsBefore_of_forall (before rs : List cytoscapeNode)
    (h : ∀ r ∈ rs, ∀ p, r.parent? = some p → p ≠ "" → groupRecord p ∈ before) :
    parentsBefore before rs := by
  intro x r y heq p hp hne
  have hr : r ∈ rs := by rw [heq]; simp
  exact List.mem_append_left _ (h r hr p hp hne)

theorem parentsBefore_append (before a b : List cytoscapeNode)
    (ha : parentsBefore before a) (hb : parentsBefore (before ++ a) b) :
    parentsBefore before (a ++ b) := by
  intro x r y heq p hp hne
  rcases List.append_eq_append_iff.mp heq with ⟨a', hx, hb'⟩ | ⟨c', ha', hc⟩
  · have := hb a' r y hb' p hp hne
    rw [hx, ← List.append_assoc]
    exact this
  · cases c' with
    | nil =>
      have h1 := hb [] r y (by simpa using hc.symm) p hp hne
      have hax : a = x := by simpa using ha'
      rw [← hax]
      simpa using h1
    | cons r' c'' =>
      simp only [List.cons_append, List.cons.injEq] at hc
      obtain ⟨hr, -⟩ := hc
      subst hr
      exact ha x r c'' ha' p hp hne

theorem parentsBefore_tripletRecords (before : List cytoscapeNode) (parent : String)
    (ts : List DescriptionTriplet) (h : parent = "" ∨ groupRecord parent ∈ before) :
    parentsBefore before (tripletRecords parent ts) := by
  apply parentsBefore_of_forall
  intro r hr p hp hne
  obtain ⟨t, -, hs | he⟩ := (mem_tripletRecords _ _ _).mp hr
  · rw [hs, parent?_sourceRecord] at hp
    have hpp : parent = p := by simpa using hp
    subst hpp
    rcases h with h | h
    · exact absurd h hne
    · exact h
  · rw [he] at hp
    simp [edgeRecord, cytoscapeNode.parent?] at hp

theorem parentsBefore_groupRecords (before : List cytoscapeNode) (pm : List String)
    (parent : String) (ts : List DescriptionTriplet)
    (h : ∀ p ∈ pm, groupRecord p ∈ before) :
    parentsBefore before (groupRecords pm parent ts) := by
  unfold groupRecords
  apply parentsBefore_append
  · apply parentsBefore_of_forall
    intro r hr p hp hne
    by_cases hc : parent ≠ "" ∧ parent ∉ pm
    · rw [if_pos hc] at hr
      have hrr : r = groupRecord parent := by simpa using hr
      rw [hrr] at hp
      have : p = "" := by simpa [groupRecord, cytoscapeNode.parent?] using hp.symm
      exact absurd this hne
    · rw [if_neg hc] at hr
      simp at hr
  · apply parentsBefore_tripletRecords
    by_cases hne : parent = ""
    · exact Or.inl hne
    · right
      by_cases hm : parent ∈ pm
      · exact List.mem_append_left _ (h parent hm)
      · rw [if_pos ⟨hne, hm⟩]
        simp

theorem parentsBefore_groupsRecords (before : List cytoscapeNode) (pm : List String)
    (gs : List (String × List DescriptionTriplet))
    (h : ∀ p ∈ pm, groupRecord p ∈ before) :
    parentsBefore before (groupsRecords pm gs) := by
  induction gs generalizing before pm with
  | nil =>
    intro x r y heq
    simp [groupsRecords] at heq
  | cons g rest ih =>
    simp only [groupsRecords]
    apply parentsBefore_append _ _ _ (parentsBefore_groupRecords before pm g.1 g.2 h)
    apply ih
    intro p hp
    rcases (mem_parentsAfter pm g.1 p).mp hp with hm | ⟨heq, hne⟩
    · exact List.mem_append_left _ (h p hm)
    · by_cases hm : p ∈ pm
      · exact List.mem_append_left _ (h p hm)
      · apply List.mem_append_right
        subst heq
        unfold groupRecords
        rw [if_pos ⟨hne, hm⟩]
        simp

/-! ## Counting node records -/

theorem card_filter_insert_label (S : Finset String) (pm : List String) (label : String) :
    ((insert label S).filter (fun l => l ≠ "" ∧ l ∉ pm)).card
      = (if label ≠ "" ∧ label ∉ pm then 1 else 0)
        + (S.filter (fun l => l ≠ "" ∧ l ∉ parentsAfter pm label)).card := by
  by_cases hc : label ≠ "" ∧ label ∉ pm
  · rw [if_pos hc, Finset.filter_insert, if_pos hc]
    have herase : S.filter (fun l => l ≠ "" ∧ l ∉ parentsAfter pm label)
        = (S.filter (fun l => l ≠ "" ∧ l ∉ pm)).erase label := by
      ext l
      simp only [Finset.mem_filter, Finset.mem_erase, mem_parentsAfter]
      constructor
      · rintro ⟨hS, hne, hn⟩
        exact ⟨fun heq => hn (Or.inr ⟨heq, hne⟩), hS, hne, fun hm => hn (Or.inl hm)⟩
      · rintro ⟨hl, hS, hne, hn⟩
        refine ⟨hS, hne, ?_⟩
        rintro (hm | ⟨heq, -⟩)
        · exact hn hm
        · exact hl heq
    rw [herase]
    by_cases hmem : label ∈ S.filter (fun l => l ≠ "" ∧ l ∉ pm)
    · rw [Finset.card_insert_of_mem hmem, ← Finset.card_erase_add_one hmem]
      omega
    · rw [Finset.card_insert_of_not_mem hmem, Finset.erase_eq_of_not_mem hmem]
      omega
  · rw [if_neg hc, Finset.filter_insert, if_neg hc]
    have hpm : parentsAfter pm label = pm := by
      unfold parentsAfter
      rw [if_neg hc]
    rw [hpm]
    omega

theorem countP_isNode_groupsRecords_eq (pm : List String)
    (gs : List (String × List DescriptionTriplet)) :
    (groupsRecords pm gs).countP cytoscapeNode.isNode
      = ((gs.map Prod.fst).toFinset.filter (fun l => l ≠ "" ∧ l ∉ pm)).card
        + ((gs.map Prod.snd).flatten).length := by
  induction gs generalizing pm with
  | nil => simp [groupsRecords]
  | cons g rest ih =>
    simp only [groupsRecords, groupRecords, List.countP_append, ih,
      countP_isNode_tripletRecords, List.map_cons, List.flatten_cons, List.length_append,
      List.toFinset_cons, card_filter_insert_label]
    have hhead : (if g.1 ≠ "" ∧ g.1 ∉ pm then [groupRecord g.1] else []).countP
        cytoscapeNode.isNode = if g.1 ≠ "" ∧ g.1 ∉ pm then 1 else 0 := by
      by_cases hc : g.1 ≠ "" ∧ g.1 ∉ pm
      · rw [if_pos hc, if_pos hc]; simp [groupRecord, cytoscapeNode.isNode]
      · rw [if_neg hc, if_neg hc]; simp
    rw [hhead]
    omega

theorem tripletRecords_append (parent : String) (a b : List DescriptionTriplet) :
    tripletRecords parent (a ++ b) = tripletRecords parent a ++ tripletRecords parent b := by
  induction a with
  | nil => rfl
  | cons t rest ih => simp [tripletRecords, ih]

theorem workflowLoop_single (g : DescriptionInfo) (st : describeState) :
    workflowLoop [g] st
      = (none, { describer := { nodes := st.describer.nodes
                    ++ groupRecords st.parentMap (hookGroupName g) g.Nodes },
                 parentMap := parentsAfter st.parentMap (hookGroupName g),
                 calls := st.calls }) := by
  rw [workflowLoop_eq]
  simp [groupsRecords, parentsAfterAll]

theorem tripletRecords_node_parent (label : String) (ts : List DescriptionTriplet)
    (r : cytoscapeNode) (hr : r ∈ tripletRecords label ts) (hnode : r.isNode = true) :
    r.parent? = some label := by
  obtain ⟨t, -, hs | he⟩ := (mem_tripletRecords _ _ _).mp hr
  · rw [hs]; exact parent?_sourceRecord _ _
  · rw [he] at hnode; simp [edgeRecord, cytoscapeNode.isNode] at hnode

/-! ## The claims -/

/-- C1: in a run of `Describe` where validation, provisioning and the parsing of the
embedded document template succeed, if some producer's describe call fails then
`Describe` returns exactly the error of the first failing producer in pipeline order
(compute units in declared order, then the gateway, then the describable hooks in
declared order) and the output writer receives nothing. -/
theorem Describe_returns_first_producer_error (ext : Externals)
    (serviceName serviceDescription : String) (lambdaAWSInfos : List LambdaAWSInfo)
    (api : Option APIGateway) (s3Site : Option S3Site)
    (s3BucketName buildTags linkFlags : String) (workflowHooks : Option WorkflowHooks)
    (cloudFormationTemplate : String) (e : Error)
    (hvalid : ext.validateSpartaPreconditions lambdaAWSInfos = none)
    (hprov : provisionCall ext serviceName serviceDescription lambdaAWSInfos api s3Site
        s3BucketName buildTags linkFlags workflowHooks = .ok cloudFormationTemplate)
    (hparse : ext.templateParse = none)
    (hfail : firstError (producerOutcomes serviceName lambdaAWSInfos api workflowHooks) = some e) :
    (Describe ext serviceName serviceDescription lambdaAWSInfos api s3Site s3BucketName
        buildTags linkFlags workflowHooks).err = some e
      ∧ (Describe ext serviceName serviceDescription lambdaAWSInfos api s3Site s3BucketName
        buildTags linkFlags workflowHooks).output = [] := by
  have ha := assemble_err ext.nodeColorService serviceName lambdaAWSInfos api workflowHooks
  rw [hfail] at ha
  unfold Describe
  simp only [hvalid, hprov, hparse, ha]
  exact ⟨trivial, trivial⟩

/-- Witness of C1: the second compute unit fails, a later hook would fail too. -/
theorem Describe_returns_first_producer_error_witness :
    (Describe sampleExternals "svc" "a service" [unitA, brokenUnit] none none "bucket" "" ""
        (some { ServiceDecorators := [brokenDecorator] })).err = some "unit failed"
      ∧ (Describe sampleExternals "svc" "a service" [unitA, brokenUnit] none none "bucket" "" ""
        (some { ServiceDecorators := [brokenDecorator] })).output = [] :=
  Describe_returns_first_producer_error sampleExternals "svc" "a service" [unitA, brokenUnit]
    none none "bucket" "" "" (some { ServiceDecorators := [brokenDecorator] }) "template"
    "unit failed" rfl rfl rfl rfl

/-- C2: for every list of service decorators in which some describable decorator's
`Describe` fails, `workflowHooksDescriptionNodes` returns the error of the first such
decorator in list order together with a nil result set, it has invoked that
decorator, and it has invoked no decorator at a later position. -/
theorem workflowHooksDescriptionNodes_first_error (serviceName : String)
    (ds : List ServiceDecoratorHookHandler)
    (h : ∃ d ∈ ds, ∃ c e, d.describable = some c ∧ c.Describe serviceName = .error e) :
    ∃ pre d post c e,
      ds = pre ++ d :: post
        ∧ (∀ x ∈ pre, ∀ cx, x.describable = some cx → ∃ g, cx.Describe serviceName = .ok g)
        ∧ d.describable = some c ∧ c.Describe serviceName = .error e
        ∧ (workflowHooksDescriptionNodes serviceName (some { ServiceDecorators := ds })).1
            = (none, some e)
        ∧ Call.decoratorDescribe pre.length
            ∈ (workflowHooksDescriptionNodes serviceName (some { ServiceDecorators := ds })).2
        ∧ ∀ call ∈ (workflowHooksDescriptionNodes serviceName (some { ServiceDecorators := ds })).2,
            ∃ j, call = Call.decoratorDescribe j ∧ j ≤ pre.length := by
  have h0 : ∃ d ∈ ds, decoratorError serviceName d ≠ none := by
    obtain ⟨d, hd, c, e, hc, he⟩ := h
    refine ⟨d, hd, ?_⟩
    rw [(decoratorError_eq_some_iff serviceName d e).mpr ⟨c, hc, he⟩]
    simp
  obtain ⟨pre, d, post, e, hds, hpre, hd⟩ := exists_first_failure serviceName ds h0
  obtain ⟨c, hc, hce⟩ := (decoratorError_eq_some_iff serviceName d e).mp hd
  obtain ⟨h1, h2, h3⟩ := workflowHooksLoop_at_failure serviceName pre d post e 0 [] hpre hd
  refine ⟨pre, d, post, c, e, hds, ?_, hc, hce, ?_, ?_, ?_⟩
  · exact fun x hx => (decoratorError_eq_none_iff serviceName x).mp (hpre x hx)
  · simpa [workflowHooksDescriptionNodes, hds] using h1
  · simpa [workflowHooksDescriptionNodes, hds] using h3
  · intro call hcall
    simp only [workflowHooksDescriptionNodes, hds] at hcall
    obtain ⟨j, hj, -, hhi⟩ := h2 call hcall
    exact ⟨j, hj, by omega⟩

/-- Witness of C2: the failing decorator stands between a capability-less one and a
describable one. -/
theorem workflowHooksDescriptionNodes_first_error_witness :
    ∃ pre d post c e,
      [plainDecorator, namedDecorator, brokenDecorator, anonymousDecorator] = pre ++ d :: post
        ∧ (∀ x ∈ pre, ∀ cx, x.describable = some cx → ∃ g, cx.Describe "svc" = .ok g)
        ∧ d.describable = some c ∧ c.Describe "svc" = .error e
        ∧ (workflowHooksDescriptionNodes "svc" (some { ServiceDecorators :=
              [plainDecorator, namedDecorator, brokenDecorator, anonymousDecorator] })).1
            = (none, some e)
        ∧ Call.decoratorDescribe pre.length
            ∈ (workflowHooksDescriptionNodes "svc" (some { ServiceDecorators :=
              [plainDecorator, namedDecorator, brokenDecorator, anonymousDecorator] })).2
        ∧ ∀ call ∈ (workflowHooksDescriptionNodes "svc" (some { ServiceDecorators :=
              [plainDecorator, namedDecorator, brokenDecorator, anonymousDecorator] })).2,
            ∃ j, call = Call.decoratorDescribe j ∧ j ≤ pre.length :=
  workflowHooksDescriptionNodes_first_error "svc"
    [plainDecorator, namedDecorator, brokenDecorator, anonymousDecorator]
    ⟨brokenDecorator, by simp, { Describe := fun _ => .error "hook failed" }, "hook failed",
      rfl, rfl⟩

/-- C3: for every list of service decorators in which every describable decorator's
`Describe` succeeds, `workflowHooksDescriptionNodes` returns no error and a sequence
whose entries are, position by position, the `Describe` results of the describable
decorators in their list order; decorators without the capability contribute no
entry and no error. -/
theorem workflowHooksDescriptionNodes_collects (serviceName : String)
    (ds : List ServiceDecoratorHookHandler)
    (h : ∀ d ∈ ds, ∀ c, d.describable = some c → ∃ g, c.Describe serviceName = .ok g) :
    ∃ gs,
      (workflowHooksDescriptionNodes serviceName (some { ServiceDecorators := ds })).1
          = (some gs, none)
        ∧ List.Forall₂ (fun c g => c.Describe serviceName = .ok g)
            (ds.filterMap (fun d => d.describable)) gs := by
  have hnone : firstError (ds.map (decoratorError serviceName)) = none := by
    clear * - h
    induction ds with
    | nil => rfl
    | cons d rest ih =>
      have hd := (decoratorError_eq_none_iff serviceName d).mpr (h d (by simp))
      simp only [List.map_cons, hd, firstError]
      exact ih (fun x hx => h x (by simp [hx]))
  refine ⟨(ds.filterMap (fun d => d.describable)).map
      (fun c => describedGroup (c.Describe serviceName)), ?_, ?_⟩
  · simp [workflowHooksDescriptionNodes, workflowHooksLoop_result, hnone]
  · apply forall₂_describedGroup
    intro c hc
    obtain ⟨d, hd, hdc⟩ := List.mem_filterMap.mp hc
    exact h d hd c hdc

/-- Witness of C3: two describable decorators around one without the capability. -/
theorem workflowHooksDescriptionNodes_collects_witness :
    ∃ gs,
      (workflowHooksDescriptionNodes "svc" (some { ServiceDecorators :=
          [namedDecorator, plainDecorator, anonymousDecorator] })).1 = (some gs, none)
        ∧ List.Forall₂ (fun c g => c.Describe "svc" = .ok g)
            ([namedDecorator, plainDecorator, anonymousDecorator].filterMap
              (fun d => d.describable)) gs :=
  workflowHooksDescriptionNodes_collects "svc" [namedDecorator, plainDecorator, anonymousDecorator]
    (by
      intro d hd c hc
      simp only [List.mem_cons, List.mem_singleton, List.not_mem_nil, or_false] at hd
      rcases hd with rfl | rfl | rfl
      · simp only [namedDecorator, Option.some.injEq] at hc
        subst hc
        exact ⟨_, rfl⟩
      · simp [plainDecorator] at hc
      · simp only [anonymousDecorator, Option.some.injEq] at hc
        subst hc
        exact ⟨_, rfl⟩)

/-- C4: in every successful assembly run the first record of the accumulated sequence
is a node record whose id is the service name, with the service color
(`nodeColorService`), the CloudFormation-stack icon path, no parent and bold weight. -/
theorem assemble_root_first (nodeColorService serviceName : String)
    (lambdaAWSInfos : List LambdaAWSInfo) (api : Option APIGateway)
    (workflowHooks : Option WorkflowHooks)
    (h : (assemble nodeColorService serviceName lambdaAWSInfos api workflowHooks).1 = none) :
    (assemble nodeColorService serviceName lambdaAWSInfos api workflowHooks).2.describer.nodes.head?
      = some (cytoscapeNode.node serviceName nodeColorService
          "AWS-Architecture-Icons_PNG/PNG Light/Management & Governance/AWS-CloudFormation_Stack_light-bg@4x.png"
          "" LabelWeight.labelWeightBold) := by
  rw [assemble_nodes _ _ _ _ _ h]
  rfl

/-- Witness of C4: a run with a compute unit and a hook. -/
theorem assemble_root_first_witness :
    (assemble "#720502" "svc" [unitA] none
        (some { ServiceDecorators := [anonymousDecorator] })).2.describer.nodes.head?
      = some (cytoscapeNode.node "svc" "#720502"
          "AWS-Architecture-Icons_PNG/PNG Light/Management & Governance/AWS-CloudFormation_Stack_light-bg@4x.png"
          "" LabelWeight.labelWeightBold) :=
  assemble_root_first "#720502" "svc" [unitA] none
    (some { ServiceDecorators := [anonymousDecorator] }) rfl

/-- C5: in every successful assembly run, for every non-empty label under which a
producer's group is written (the compute label, the gateway's label, a hook's label,
whether used by one producer or by several), the accumulated sequence contains
exactly one group node record for that label: id equal to the label, color
"#FF0000", the empty-image icon, no parent, bold weight. -/
theorem assemble_group_node_once (nodeColorService serviceName : String)
    (lambdaAWSInfos : List LambdaAWSInfo) (api : Option APIGateway)
    (workflowHooks : Option WorkflowHooks) (label : String)
    (h : (assemble nodeColorService serviceName lambdaAWSInfos api workflowHooks).1 = none)
    (hne : label ≠ "")
    (hused : label ∈ (pipelineGroups serviceName lambdaAWSInfos api workflowHooks).map Prod.fst) :
    (assemble nodeColorService serviceName lambdaAWSInfos api workflowHooks).2.describer.nodes.count
        (cytoscapeNode.node label "#FF0000" "AWS-Architecture-Icons_PNG/empty-image.png" ""
          LabelWeight.labelWeightBold) = 1 := by
  rw [assemble_nodes _ _ _ _ _ h]
  have hroot : rootRecord nodeColorService serviceName ≠ groupRecord label := by
    simp [rootRecord, groupRecord]
  have hc := count_groupRecord_groupsRecords label []
    (pipelineGroups serviceName lambdaAWSInfos api workflowHooks)
  rw [if_pos ⟨hne, List.not_mem_nil _, hused⟩] at hc
  have hcons := List.count_cons_of_ne hroot.symm
    (groupsRecords [] (pipelineGroups serviceName lambdaAWSInfos api workflowHooks))
  rw [hc] at hcons
  exact hcons

/-- Witness of C5: two compute units and a hook all write under "Lambdas". -/
theorem assemble_group_node_once_witness :
    (assemble "#720502" "svc" [unitA, unitA] none
        (some { ServiceDecorators := [lambdasDecorator] })).2.describer.nodes.count
        (cytoscapeNode.node "Lambdas" "#FF0000" "AWS-Architecture-Icons_PNG/empty-image.png" ""
          LabelWeight.labelWeightBold) = 1 :=
  assemble_group_node_once "#720502" "svc" [unitA, unitA] none
    (some { ServiceDecorators := [lambdasDecorator] }) "Lambdas" rfl (by decide) (by decide)

/-- C6: in every successful assembly run in which the producers return N triplets in
total, the accumulated sequence contains exactly N edge records and at least N node
records. -/
theorem assemble_edge_and_node_counts (nodeColorService serviceName : String)
    (lambdaAWSInfos : List LambdaAWSInfo) (api : Option APIGateway)
    (workflowHooks : Option WorkflowHooks)
    (h : (assemble nodeColorService serviceName lambdaAWSInfos api workflowHooks).1 = none) :
    (assemble nodeColorService serviceName lambdaAWSInfos api workflowHooks).2.describer.nodes.countP
        cytoscapeNode.isEdge
        = (producerTriplets serviceName lambdaAWSInfos api workflowHooks).length
      ∧ (producerTriplets serviceName lambdaAWSInfos api workflowHooks).length
        ≤ (assemble nodeColorService serviceName lambdaAWSInfos api
            workflowHooks).2.describer.nodes.countP cytoscapeNode.isNode := by
  rw [assemble_nodes _ _ _ _ _ h, producerTriplets_eq]
  have hn := countP_isNode_groupsRecords []
    (pipelineGroups serviceName lambdaAWSInfos api workflowHooks)
  constructor
  · rw [List.countP_cons_of_neg _ _ (by simp [rootRecord, cytoscapeNode.isEdge])]
    exact countP_isEdge_groupsRecords _ _
  · rw [List.countP_cons_of_pos _ _ (by simp [rootRecord, cytoscapeNode.isNode])]
    omega

/-- Witness of C6: three triplets from two compute units and one hook. -/
theorem assemble_edge_and_node_counts_witness :
    (assemble "#720502" "svc" [unitA, unitA] none
        (some { ServiceDecorators := [plainDecorator, namedDecorator] })).2.describer.nodes.countP
        cytoscapeNode.isEdge
        = (producerTriplets "svc" [unitA, unitA] none
            (some { ServiceDecorators := [plainDecorator, namedDecorator] })).length
      ∧ (producerTriplets "svc" [unitA, unitA] none
            (some { ServiceDecorators := [plainDecorator, namedDecorator] })).length
        ≤ (assemble "#720502" "svc" [unitA, unitA] none
            (some { ServiceDecorators := [plainDecorator, namedDecorator] })).2.describer.nodes.countP
            cytoscapeNode.isNode :=
  assemble_edge_and_node_counts "#720502" "svc" [unitA, unitA] none
    (some { ServiceDecorators := [plainDecorator, namedDecorator] }) rfl

/-- C7: for every service name, with zero compute units, no gateway and no hooks
(nil hooks or an empty decorator list) the assembly succeeds and the accumulated
sequence is the root node record alone: one node record, zero edge records.  The same
holds for the records of a `Describe` run that gets past validation, provisioning and
template parsing. -/
theorem assemble_empty_service (ext : Externals) (serviceName serviceDescription : String)
    (s3Site : Option S3Site) (s3BucketName buildTags linkFlags : String)
    (workflowHooks : Option WorkflowHooks)
    (hhooks : workflowHooks = none ∨ workflowHooks = some { ServiceDecorators := [] }) :
    (assemble ext.nodeColorService serviceName [] none workflowHooks).1 = none
      ∧ (assemble ext.nodeColorService serviceName [] none workflowHooks).2.describer.nodes
          = [cytoscapeNode.node serviceName ext.nodeColorService
              "AWS-Architecture-Icons_PNG/PNG Light/Management & Governance/AWS-CloudFormation_Stack_light-bg@4x.png"
              "" LabelWeight.labelWeightBold]
      ∧ (∀ cloudFormationTemplate,
          ext.validateSpartaPreconditions [] = none →
          provisionCall ext serviceName serviceDescription [] none s3Site s3BucketName
            buildTags linkFlags workflowHooks = .ok cloudFormationTemplate →
          ext.templateParse = none →
          (Describe ext serviceName serviceDescription [] none s3Site s3BucketName buildTags
              linkFlags workflowHooks).nodes
            = [cytoscapeNode.node serviceName ext.nodeColorService
                "AWS-Architecture-Icons_PNG/PNG Light/Management & Governance/AWS-CloudFormation_Stack_light-bg@4x.png"
                "" LabelWeight.labelWeightBold]
          ∧ (Describe ext serviceName serviceDescription [] none s3Site s3BucketName buildTags
              linkFlags workflowHooks).nodes.countP cytoscapeNode.isNode = 1
          ∧ (Describe ext serviceName serviceDescription [] none s3Site s3BucketName buildTags
              linkFlags workflowHooks).nodes.countP cytoscapeNode.isEdge = 0) := by
  have ha : assemble ext.nodeColorService serviceName [] none workflowHooks
      = (none, { describer := { nodes := [cytoscapeNode.node serviceName ext.nodeColorService
            "AWS-Architecture-Icons_PNG/PNG Light/Management & Governance/AWS-CloudFormation_Stack_light-bg@4x.png"
            "" LabelWeight.labelWeightBold] }, parentMap := [], calls := [] }) := by
    rw [assemble_no_hooks _ _ _ _ _ hhooks]
    simp [assemble, descriptionWriter.writeNodeWithParent, lambdaLoop, apiStep, hooksStep,
      workflowHooksDescriptionNodes, workflowLoop, rootIconPath_eq]
  refine ⟨by rw [ha], by rw [ha], ?_⟩
  intro cloudFormationTemplate hvalid hprov hparse
  have hn : (Describe ext serviceName serviceDescription [] none s3Site s3BucketName buildTags
      linkFlags workflowHooks).nodes
        = [cytoscapeNode.node serviceName ext.nodeColorService
            "AWS-Architecture-Icons_PNG/PNG Light/Management & Governance/AWS-CloudFormation_Stack_light-bg@4x.png"
            "" LabelWeight.labelWeightBold] := by
    unfold Describe
    simp only [hvalid, hprov, hparse, ha]
    cases ext.marshalIndent _ <;> rfl
  rw [hn]
  exact ⟨rfl, by simp [cytoscapeNode.isNode], by simp [cytoscapeNode.isEdge]⟩

/-- Witness of C7: an empty decorator list, at the level of the assembly and of
`Describe`. -/
theorem assemble_empty_service_witness :
    (assemble sampleExternals.nodeColorService "svc" [] none
        (some { ServiceDecorators := [] })).2.describer.nodes
      = [cytoscapeNode.node "svc" sampleExternals.nodeColorService
          "AWS-Architecture-Icons_PNG/PNG Light/Management & Governance/AWS-CloudFormation_Stack_light-bg@4x.png"
          "" LabelWeight.labelWeightBold]
      ∧ (Describe sampleExternals "svc" "a service" [] none none "bucket" "" ""
          (some { ServiceDecorators := [] })).nodes.countP cytoscapeNode.isEdge = 0 :=
  ⟨(assemble_empty_service sampleExternals "svc" "a service" none "bucket" "" ""
      (some { ServiceDecorators := [] }) (Or.inr rfl)).2.1,
   ((assemble_empty_service sampleExternals "svc" "a service" none "bucket" "" ""
      (some { ServiceDecorators := [] }) (Or.inr rfl)).2.2 "template" rfl rfl rfl).2.2⟩

/-- Counterexample to C8 as stated: with the single compute unit of the example the
accumulated sequence is not the one with a "Compute" group node and parent
"Compute"; the code writes compute units under the label "Lambdas". -/
theorem unitA_not_under_Compute :
    (assemble "#720502" "svc" [unitA] none none).1 = none
      ∧ (assemble "#720502" "svc" [unitA] none none).2.describer.nodes
        ≠ [cytoscapeNode.node "svc" "#720502"
            "AWS-Architecture-Icons_PNG/PNG Light/Management & Governance/AWS-CloudFormation_Stack_light-bg@4x.png"
            "" LabelWeight.labelWeightBold,
           cytoscapeNode.node "Compute" "#FF0000" "AWS-Architecture-Icons_PNG/empty-image.png" ""
            LabelWeight.labelWeightBold,
           cytoscapeNode.node "UnitA" "" "AWS-Architecture-Icons_PNG/empty-image.png" "Compute"
            LabelWeight.labelWeightNormal,
           cytoscapeNode.edge "UnitA" "TableX" "writes"] := by
  decide

/-- C8, amended: with exactly one compute unit whose description is the single
triplet `UnitA -> TableX` labelled "writes" with no display info, no gateway and no
hooks, the accumulated sequence is exactly: the root node, a "Lambdas" group node, a
node "UnitA" with empty color, the empty-image icon, parent "Lambdas" and normal
weight, and the edge `UnitA -> TableX` labelled "writes". -/
theorem assemble_single_unit (nodeColorService serviceName : String) (unit : LambdaAWSInfo)
    (workflowHooks : Option WorkflowHooks)
    (hunit : unit.Description serviceName
      = .ok [{ SourceNodeName := "UnitA", DisplayInfo := none, ArcLabel := "writes",
               TargetNodeName := "TableX" }])
    (hhooks : workflowHooks = none ∨ workflowHooks = some { ServiceDecorators := [] }) :
    (assemble nodeColorService serviceName [unit] none workflowHooks).1 = none
      ∧ (assemble nodeColorService serviceName [unit] none workflowHooks).2.describer.nodes
        = [cytoscapeNode.node serviceName nodeColorService
            "AWS-Architecture-Icons_PNG/PNG Light/Management & Governance/AWS-CloudFormation_Stack_light-bg@4x.png"
            "" LabelWeight.labelWeightBold,
           cytoscapeNode.node "Lambdas" "#FF0000" "AWS-Architecture-Icons_PNG/empty-image.png" ""
            LabelWeight.labelWeightBold,
           cytoscapeNode.node "UnitA" "" "AWS-Architecture-Icons_PNG/empty-image.png" "Lambdas"
            LabelWeight.labelWeightNormal,
           cytoscapeNode.edge "UnitA" "TableX" "writes"] := by
  rw [assemble_no_hooks _ _ _ _ _ hhooks]
  have herr : (assemble nodeColorService serviceName [unit] none none).1 = none := by
    rw [assemble_err]
    simp [producerOutcomes, describables, firstError, errorOf, hunit]
  refine ⟨herr, ?_⟩
  rw [assemble_nodes _ _ _ _ _ herr]
  simp [pipelineGroups, describables, lambdaTriplets, hunit, groupsRecords, groupRecords,
    tripletRecords, sourceRecord, edgeRecord, groupRecord, rootRecord]

/-- Witness of C8 (amended): the compute unit `unitA`. -/
theorem assemble_single_unit_witness :
    (assemble "#720502" "svc" [unitA] none none).1 = none
      ∧ (assemble "#720502" "svc" [unitA] none none).2.describer.nodes
        = [cytoscapeNode.node "svc" "#720502"
            "AWS-Architecture-Icons_PNG/PNG Light/Management & Governance/AWS-CloudFormation_Stack_light-bg@4x.png"
            "" LabelWeight.labelWeightBold,
           cytoscapeNode.node "Lambdas" "#FF0000" "AWS-Architecture-Icons_PNG/empty-image.png" ""
            LabelWeight.labelWeightBold,
           cytoscapeNode.node "UnitA" "" "AWS-Architecture-Icons_PNG/empty-image.png" "Lambdas"
            LabelWeight.labelWeightNormal,
           cytoscapeNode.edge "UnitA" "TableX" "writes"] :=
  assemble_single_unit "#720502" "svc" unitA none rfl (Or.inl rfl)

/-- C9: in every successful assembly run no node record is created for a triplet's
target.  The ids of the node records are exactly the service name, the non-empty
group labels used and the source names of the triplets; every triplet has its edge
record (source, target, label) in the sequence whether or not its target is the id
of a node record; and a target that is none of those ids is the id of no node
record. -/
theorem assemble_node_ids_and_edges (nodeColorService serviceName : String)
    (lambdaAWSInfos : List LambdaAWSInfo) (api : Option APIGateway)
    (workflowHooks : Option WorkflowHooks)
    (h : (assemble nodeColorService serviceName lambdaAWSInfos api workflowHooks).1 = none) :
    (∀ id : String,
        (∃ r ∈ (assemble nodeColorService serviceName lambdaAWSInfos api
              workflowHooks).2.describer.nodes, r.nodeId? = some id)
          ↔ id = serviceName
            ∨ (id ≠ "" ∧ id ∈ (pipelineGroups serviceName lambdaAWSInfos api
                  workflowHooks).map Prod.fst)
            ∨ ∃ t ∈ producerTriplets serviceName lambdaAWSInfos api workflowHooks,
                t.SourceNodeName = id)
      ∧ (∀ t ∈ producerTriplets serviceName lambdaAWSInfos api workflowHooks,
          cytoscapeNode.edge t.SourceNodeName t.TargetNodeName t.ArcLabel
            ∈ (assemble nodeColorService serviceName lambdaAWSInfos api
                workflowHooks).2.describer.nodes)
      ∧ (∀ t ∈ producerTriplets serviceName lambdaAWSInfos api workflowHooks,
          t.TargetNodeName ≠ serviceName →
          (t.TargetNodeName = "" ∨ t.TargetNodeName ∉ (pipelineGroups serviceName
              lambdaAWSInfos api workflowHooks).map Prod.fst) →
          (∀ u ∈ producerTriplets serviceName lambdaAWSInfos api workflowHooks,
              u.SourceNodeName ≠ t.TargetNodeName) →
          ∀ r ∈ (assemble nodeColorService serviceName lambdaAWSInfos api
              workflowHooks).2.describer.nodes, r.nodeId? ≠ some t.TargetNodeName) := by
  refine ⟨assemble_nodeId_iff _ _ _ _ _ h, ?_, ?_⟩
  · intro t ht
    rw [assemble_nodes _ _ _ _ _ h]
    obtain ⟨g, hg, htg⟩ := (mem_producerTriplets _ _ _ _ _).mp ht
    exact List.mem_cons_of_mem _
      ((mem_groupsRecords _ _ _).mpr (Or.inr ⟨g, hg, t, htg, Or.inr rfl⟩))
  · intro t _ hsvc hlabel hsrc r hr hid
    rcases (assemble_nodeId_iff _ _ _ _ _ h t.TargetNodeName).mp ⟨r, hr, hid⟩ with
      h1 | ⟨h2, h3⟩ | ⟨u, hu, h4⟩
    · exact hsvc h1
    · rcases hlabel with hl | hl
      · exact h2 hl
      · exact hl h3
    · exact hsrc u hu h4

/-- Witness of C9: the edge `UnitA -> TableX` is recorded and no node record has the
id "TableX". -/
theorem assemble_node_ids_and_edges_witness :
    cytoscapeNode.edge "UnitA" "TableX" "writes"
        ∈ (assemble "#720502" "svc" [unitA] none none).2.describer.nodes
      ∧ ∀ r ∈ (assemble "#720502" "svc" [unitA] none none).2.describer.nodes,
          r.nodeId? ≠ some "TableX" :=
  ⟨(assemble_node_ids_and_edges "#720502" "svc" [unitA] none none rfl).2.1 unitATriplet
      (by decide),
   (assemble_node_ids_and_edges "#720502" "svc" [unitA] none none rfl).2.2 unitATriplet
      (by decide) (by decide) (Or.inr (by decide)) (by decide)⟩

/-- C10: the groups the dispatcher returned are written by the hooks step, which
does not fail, each under its label: "WorkflowHooks" when the hook supplied the empty
name, otherwise exactly the supplied name.  The records the step appends are those of
the groups under these labels, in order.  For one group with the empty name the loop
appends the "WorkflowHooks" group node record (when that label is new) and then the
triplets' records, and every node record it appends other than that group record has
parent "WorkflowHooks"; for a group with a non-empty name the same holds with the
supplied name.  The loop over several groups is the loop over the first followed by
the loop over the rest. -/
theorem hook_groups_written_under_label (serviceName : String)
    (workflowHooks : Option WorkflowHooks) (st0 : describeState) (gs : List DescriptionInfo)
    (hdispatch : (workflowHooksDescriptionNodes serviceName workflowHooks).1 = (some gs, none)) :
    hooksStep serviceName workflowHooks st0
        = workflowLoop gs
            { st0 with calls := st0.calls
                ++ (workflowHooksDescriptionNodes serviceName workflowHooks).2 }
      ∧ (hooksStep serviceName workflowHooks st0).1 = none
      ∧ (hooksStep serviceName workflowHooks st0).2.describer.nodes
          = st0.describer.nodes
            ++ groupsRecords st0.parentMap
                (gs.map (fun g => (if g.Name = "" then "WorkflowHooks" else g.Name, g.Nodes)))
      ∧ (∀ (g : DescriptionInfo) (st : describeState), g.Name = "" →
          (workflowLoop [g] st).1 = none
            ∧ (workflowLoop [g] st).2.describer.nodes
                = st.describer.nodes
                  ++ (if "WorkflowHooks" ∉ st.parentMap then
                        [cytoscapeNode.node "WorkflowHooks" "#FF0000"
                          "AWS-Architecture-Icons_PNG/empty-image.png" ""
                          LabelWeight.labelWeightBold]
                      else [])
                  ++ tripletRecords "WorkflowHooks" g.Nodes
            ∧ ∀ r ∈ (workflowLoop [g] st).2.describer.nodes.drop st.describer.nodes.length,
                r.isNode = true →
                  r = cytoscapeNode.node "WorkflowHooks" "#FF0000"
                        "AWS-Architecture-Icons_PNG/empty-image.png" ""
                        LabelWeight.labelWeightBold
                    ∨ r.parent? = some "WorkflowHooks")
      ∧ (∀ (g : DescriptionInfo) (st : describeState), g.Name ≠ "" →
          (workflowLoop [g] st).1 = none
            ∧ (workflowLoop [g] st).2.describer.nodes
                = st.describer.nodes
                  ++ (if g.Name ∉ st.parentMap then
                        [cytoscapeNode.node g.Name "#FF0000"
                          "AWS-Architecture-Icons_PNG/empty-image.png" ""
                          LabelWeight.labelWeightBold]
                      else [])
                  ++ tripletRecords g.Name g.Nodes
            ∧ ∀ r ∈ (workflowLoop [g] st).2.describer.nodes.drop st.describer.nodes.length,
                r.isNode = true →
                  r = cytoscapeNode.node g.Name "#FF0000"
                        "AWS-Architecture-Icons_PNG/empty-image.png" ""
                        LabelWeight.labelWeightBold
                    ∨ r.parent? = some g.Name)
      ∧ (∀ (g : DescriptionInfo) (rest : List DescriptionInfo) (st : describeState),
          workflowLoop (g :: rest) st = workflowLoop rest (workflowLoop [g] st).2) := by
  have hstep : hooksStep serviceName workflowHooks st0
      = workflowLoop gs
          { st0 with calls := st0.calls
              ++ (workflowHooksDescriptionNodes serviceName workflowHooks).2 } := by
    unfold hooksStep
    simp only [hdispatch, Option.getD]
  have hsingle : ∀ (g : DescriptionInfo) (st : describeState) (label : String),
      hookGroupName g = label → label ≠ "" →
      (workflowLoop [g] st).1 = none
        ∧ (workflowLoop [g] st).2.describer.nodes
            = st.describer.nodes
              ++ (if label ∉ st.parentMap then [groupRecord label] else [])
              ++ tripletRecords label g.Nodes
        ∧ ∀ r ∈ (workflowLoop [g] st).2.describer.nodes.drop st.describer.nodes.length,
            r.isNode = true → r = groupRecord label ∨ r.parent? = some label := by
    intro g st label hlabel hne
    have hnodes : (workflowLoop [g] st).2.describer.nodes
        = st.describer.nodes
          ++ ((if label ∉ st.parentMap then [groupRecord label] else [])
              ++ tripletRecords label g.Nodes) := by
      rw [workflowLoop_single, hlabel]
      simp [groupRecords, hne]
    refine ⟨by rw [workflowLoop_single], by rw [hnodes, List.append_assoc], ?_⟩
    intro r hr hnode
    rw [hnodes, List.drop_left] at hr
    rcases List.mem_append.mp hr with hg | ht
    · left
      by_cases hm : label ∉ st.parentMap
      · rw [if_pos hm] at hg
        simpa using hg
      · rw [if_neg hm] at hg
        simp at hg
    · exact Or.inr (tripletRecords_node_parent _ _ _ ht hnode)
  refine ⟨hstep, ?_, ?_, ?_, ?_, ?_⟩
  · rw [hstep, workflowLoop_eq]
  · rw [hstep, workflowLoop_eq]
    rfl
  · intro g st hname
    have := hsingle g st "WorkflowHooks" (by simp [hookGroupName, hname]) (by decide)
    simpa [groupRecord] using this
  · intro g st hname
    have := hsingle g st g.Name (by simp [hookGroupName, hname]) hname
    simpa [groupRecord] using this
  · intro g rest st
    rw [workflowLoop_single]
    simp only [workflowLoop, writeNodes_eq, hookGroupName]

/-- Witness of C10: one hook without a name and one named "Hooks", written after the
root node. -/
theorem hook_groups_written_under_label_witness :
    (hooksStep "svc" (some { ServiceDecorators := [anonymousDecorator, namedDecorator] })
        { describer := { nodes := [rootRecord "#720502" "svc"] }, parentMap := [],
          calls := [] }).2.describer.nodes
      = [rootRecord "#720502" "svc",
         cytoscapeNode.node "WorkflowHooks" "#FF0000" "AWS-Architecture-Icons_PNG/empty-image.png" ""
           LabelWeight.labelWeightBold,
         cytoscapeNode.node "UnitA" "" "AWS-Architecture-Icons_PNG/empty-image.png" "WorkflowHooks"
           LabelWeight.labelWeightNormal,
         cytoscapeNode.edge "UnitA" "TableX" "writes",
         cytoscapeNode.node "Hooks" "#FF0000" "AWS-Architecture-Icons_PNG/empty-image.png" ""
           LabelWeight.labelWeightBold,
         cytoscapeNode.node "UnitA" "" "AWS-Architecture-Icons_PNG/empty-image.png" "Hooks"
           LabelWeight.labelWeightNormal,
         cytoscapeNode.edge "UnitA" "TableX" "writes"] :=
  (hook_groups_written_under_label "svc"
    (some { ServiceDecorators := [anonymousDecorator, namedDecorator] })
    { describer := { nodes := [rootRecord "#720502" "svc"] }, parentMap := [], calls := [] }
    [{ Name := "", Nodes := [unitATriplet] }, { Name := "Hooks", Nodes := [unitATriplet] }]
    rfl).2.2.1.trans (by decide)

/-- C11: the accumulated record sequence depends only on the service name and on the
results of the producers' describe calls in their order.  Two runs of `Describe` that
both get past validation, provisioning and template parsing, with the same service
name and the same producer results, hold identical record sequences, whatever the
collaborators of each run yield as build identifier (the timestamp fallback
included) and template text and whatever the service descriptions are; with the
same encoder the JSON payloads are then identical too. -/
theorem Describe_records_deterministic (ext1 ext2 : Externals)
    (serviceName serviceDescription1 serviceDescription2 : String)
    (lambdaAWSInfos1 lambdaAWSInfos2 : List LambdaAWSInfo) (api1 api2 : Option APIGateway)
    (s3Site1 s3Site2 : Option S3Site)
    (s3BucketName1 s3BucketName2 buildTags1 buildTags2 linkFlags1 linkFlags2 : String)
    (workflowHooks1 workflowHooks2 : Option WorkflowHooks)
    (cloudFormationTemplate1 cloudFormationTemplate2 : String)
    (hcolor : ext1.nodeColorService = ext2.nodeColorService)
    (hlambdas : lambdaAWSInfos1.map (fun l => l.Description serviceName)
        = lambdaAWSInfos2.map (fun l => l.Description serviceName))
    (hapi : api1.map (fun a => a.Describe serviceName)
        = api2.map (fun a => a.Describe serviceName))
    (hhooks : (describables workflowHooks1).map (fun d => d.Describe serviceName)
        = (describables workflowHooks2).map (fun d => d.Describe serviceName))
    (hvalid1 : ext1.validateSpartaPreconditions lambdaAWSInfos1 = none)
    (hprov1 : provisionCall ext1 serviceName serviceDescription1 lambdaAWSInfos1 api1 s3Site1
        s3BucketName1 buildTags1 linkFlags1 workflowHooks1 = .ok cloudFormationTemplate1)
    (hparse1 : ext1.templateParse = none)
    (hvalid2 : ext2.validateSpartaPreconditions lambdaAWSInfos2 = none)
    (hprov2 : provisionCall ext2 serviceName serviceDescription2 lambdaAWSInfos2 api2 s3Site2
        s3BucketName2 buildTags2 linkFlags2 workflowHooks2 = .ok cloudFormationTemplate2)
    (hparse2 : ext2.templateParse = none) :
    (Describe ext1 serviceName serviceDescription1 lambdaAWSInfos1 api1 s3Site1 s3BucketName1
        buildTags1 linkFlags1 workflowHooks1).nodes
      = (Describe ext2 serviceName serviceDescription2 lambdaAWSInfos2 api2 s3Site2
          s3BucketName2 buildTags2 linkFlags2 workflowHooks2).nodes
      ∧ (ext1.marshalIndent = ext2.marshalIndent →
          ext1.marshalIndent
              (Describe ext1 serviceName serviceDescription1 lambdaAWSInfos1 api1 s3Site1
                s3BucketName1 buildTags1 linkFlags1 workflowHooks1).nodes
            = ext2.marshalIndent
              (Describe ext2 serviceName serviceDescription2 lambdaAWSInfos2 api2 s3Site2
                s3BucketName2 buildTags2 linkFlags2 workflowHooks2).nodes) := by
  have hn : (Describe ext1 serviceName serviceDescription1 lambdaAWSInfos1 api1 s3Site1
        s3BucketName1 buildTags1 linkFlags1 workflowHooks1).nodes
      = (Describe ext2 serviceName serviceDescription2 lambdaAWSInfos2 api2 s3Site2
          s3BucketName2 buildTags2 linkFlags2 workflowHooks2).nodes := by
    rw [Describe_nodes ext1 _ _ _ _ _ _ _ _ _ _ hvalid1 hprov1 hparse1,
      Describe_nodes ext2 _ _ _ _ _ _ _ _ _ _ hvalid2 hprov2 hparse2, hcolor]
    exact (assemble_congr _ _ _ _ _ _ _ _ hlambdas hapi hhooks).2
  refine ⟨hn, ?_⟩
  intro henc
  rw [hn, henc]

/-- Witness of C11: the second run has no build identifier, another template text,
another description and bucket, and an additional decorator without the capability. -/
theorem Describe_records_deterministic_witness :
    (Describe sampleExternals "svc" "first description" [unitA] (some labelledGateway) none
        "bucket" "" "" (some { ServiceDecorators := [namedDecorator] })).nodes
      = (Describe laterExternals "svc" "second description" [unitA] (some labelledGateway)
          (some { resources := "site" }) "other bucket" "tags" "flags"
          (some { ServiceDecorators := [plainDecorator, namedDecorator] })).nodes :=
  (Describe_records_deterministic sampleExternals laterExternals "svc" "first description"
    "second description" [unitA] [unitA] (some labelledGateway) (some labelledGateway) none
    (some { resources := "site" }) "bucket" "other bucket" "" "tags" "" "flags"
    (some { ServiceDecorators := [namedDecorator] })
    (some { ServiceDecorators := [plainDecorator, namedDecorator] })
    "template" "template for 1700000000" rfl rfl rfl rfl rfl rfl rfl rfl rfl rfl).1

/-- C12: leaf nodes are never deduplicated.  In every successful assembly run and for
every name, the number of normal-weight node records with that id equals the number
of triplets, over all producers, whose source has that name. -/
theorem assemble_leaf_nodes_not_deduplicated (nodeColorService serviceName : String)
    (lambdaAWSInfos : List LambdaAWSInfo) (api : Option APIGateway)
    (workflowHooks : Option WorkflowHooks) (name : String)
    (h : (assemble nodeColorService serviceName lambdaAWSInfos api workflowHooks).1 = none) :
    (assemble nodeColorService serviceName lambdaAWSInfos api workflowHooks).2.describer.nodes.countP
        (cytoscapeNode.isNormalNodeWithId name)
      = (producerTriplets serviceName lambdaAWSInfos api workflowHooks).countP
          (fun t => decide (t.SourceNodeName = name)) := by
  rw [assemble_nodes _ _ _ _ _ h, producerTriplets_eq,
    List.countP_cons_of_neg _ _ (by simp [rootRecord, cytoscapeNode.isNormalNodeWithId])]
  exact countP_isNormalNodeWithId_groupsRecords _ _ _

/-- Witness of C12: four triplets with source "UnitA" from a compute unit, the
gateway and a hook give four normal-weight node records with id "UnitA". -/
theorem assemble_leaf_nodes_not_deduplicated_witness :
    (assemble "#720502" "svc" [twiceUnitA] (some labelledGateway)
        (some { ServiceDecorators := [lambdasDecorator] })).2.describer.nodes.countP
        (cytoscapeNode.isNormalNodeWithId "UnitA") = 4 :=
  (assemble_leaf_nodes_not_deduplicated "#720502" "svc" [twiceUnitA] (some labelledGateway)
    (some { ServiceDecorators := [lambdasDecorator] }) "UnitA" rfl).trans (by decide)

/-- Counterexample to C13 as stated: the error of a compute unit's describe call is
returned to the caller of `Describe` as it is, without any added context. -/
theorem Describe_returns_bare_producer_error :
    brokenUnit.Description "svc" = .error "unit failed"
      ∧ (Describe sampleExternals "svc" "a service" [brokenUnit] none none "bucket" "" ""
          none).err = some "unit failed" :=
  ⟨rfl, by decide⟩

/-- C13, amended: of the errors `Describe` returns only the serialization error is
wrapped with context naming its stage ("Failed to marshal cytoscape data"); a
validation error, a provisioning error, the error of a producer's describe call and
the rendering error are returned to the caller unchanged (a template parsing error
is returned with its message unchanged). -/
theorem Describe_error_context (ext : Externals) (serviceName serviceDescription : String)
    (lambdaAWSInfos : List LambdaAWSInfo) (api : Option APIGateway) (s3Site : Option S3Site)
    (s3BucketName buildTags linkFlags : String) (workflowHooks : Option WorkflowHooks) :
    (∀ e, ext.validateSpartaPreconditions lambdaAWSInfos = some e →
        (Describe ext serviceName serviceDescription lambdaAWSInfos api s3Site s3BucketName
          buildTags linkFlags workflowHooks).err = some e)
      ∧ (∀ e, ext.validateSpartaPreconditions lambdaAWSInfos = none →
          provisionCall ext serviceName serviceDescription lambdaAWSInfos api s3Site
            s3BucketName buildTags linkFlags workflowHooks = .error e →
          (Describe ext serviceName serviceDescription lambdaAWSInfos api s3Site s3BucketName
            buildTags linkFlags workflowHooks).err = some e)
      ∧ (∀ cloudFormationTemplate,
          ext.validateSpartaPreconditions lambdaAWSInfos = none →
          provisionCall ext serviceName serviceDescription lambdaAWSInfos api s3Site
            s3BucketName buildTags linkFlags workflowHooks = .ok cloudFormationTemplate →
          (∀ e, ext.templateParse = some e →
            (Describe ext serviceName serviceDescription lambdaAWSInfos api s3Site
              s3BucketName buildTags linkFlags workflowHooks).err = some e)
          ∧ (ext.templateParse = none →
            (∀ e, firstError (producerOutcomes serviceName lambdaAWSInfos api workflowHooks)
                = some e →
              (Describe ext serviceName serviceDescription lambdaAWSInfos api s3Site
                s3BucketName buildTags linkFlags workflowHooks).err = some e)
            ∧ (firstError (producerOutcomes serviceName lambdaAWSInfos api workflowHooks)
                = none →
              (∀ e, ext.marshalIndent (assemble ext.nodeColorService serviceName
                    lambdaAWSInfos api workflowHooks).2.describer.nodes = .error e →
                (Describe ext serviceName serviceDescription lambdaAWSInfos api s3Site
                  s3BucketName buildTags linkFlags workflowHooks).err
                  = some ("Failed to marshal cytoscape data: " ++ e))
              ∧ (∀ cytoscapeBytes, ext.marshalIndent (assemble ext.nodeColorService
                    serviceName lambdaAWSInfos api workflowHooks).2.describer.nodes
                    = .ok cytoscapeBytes →
                (Describe ext serviceName serviceDescription lambdaAWSInfos api s3Site
                  s3BucketName buildTags linkFlags workflowHooks).err
                  = (ext.templateExecute
                      { SpartaVersion := ext.SpartaGitHash.take 8,
                        ServiceName := serviceName,
                        ServiceDescription := serviceDescription,
                        CloudFormationTemplate := cloudFormationTemplate,
                        CSSFiles := ext.templateCSSFiles,
                        JSFiles := ext.templateJSFiles,
                        ImageMap := ext.templateImageMap,
                        CytoscapeData := cytoscapeBytes }).2)))) := by
  have ha := assemble_err ext.nodeColorService serviceName lambdaAWSInfos api workflowHooks
  refine ⟨?_, ?_, ?_⟩
  · intro e hvalid
    simp only [Describe, hvalid]
  · intro e hvalid hprov
    simp only [Describe, hvalid, hprov]
  · intro cloudFormationTemplate hvalid hprov
    refine ⟨?_, ?_⟩
    · intro e hparse
      simp only [Describe, hvalid, hprov, hparse]
    · intro hparse
      refine ⟨?_, ?_⟩
      · intro e hfail
        rw [hfail] at ha
        simp only [Describe, hvalid, hprov, hparse, ha]
      · intro hok
        rw [hok] at ha
        refine ⟨?_, ?_⟩
        · intro e hm
          simp only [Describe, hvalid, hprov, hparse, ha, hm]
        · intro cytoscapeBytes hm
          simp only [Describe, hvalid, hprov, hparse, ha, hm]

/-- Witness of C13 (amended): a failing encoder; the error comes back with the
serialization context in front. -/
theorem Describe_error_context_witness :
    (Describe { sampleExternals with marshalIndent := fun _ => .error "unsupported value" }
        "svc" "a service" [unitA] none none "bucket" "" "" none).err
      = some "Failed to marshal cytoscape data: unsupported value" :=
  ((((Describe_error_context
      { sampleExternals with marshalIndent := fun _ => .error "unsupported value" }
      "svc" "a service" [unitA] none none "bucket" "" "" none).2.2 "template" rfl rfl).2 rfl).2
    rfl).1 "unsupported value" rfl

/-- C14: when validation of the compute units fails, `Describe` returns that error
at once: validation is the only call it has made (no provisioning, no producer), the
writer holds no record and the output writer has received nothing. -/
theorem Describe_validation_error (ext : Externals) (serviceName serviceDescription : String)
    (lambdaAWSInfos : List LambdaAWSInfo) (api : Option APIGateway) (s3Site : Option S3Site)
    (s3BucketName buildTags linkFlags : String) (workflowHooks : Option WorkflowHooks)
    (validationErr : Error)
    (hvalid : ext.validateSpartaPreconditions lambdaAWSInfos = some validationErr) :
    (Describe ext serviceName serviceDescription lambdaAWSInfos api s3Site s3BucketName
        buildTags linkFlags workflowHooks).err = some validationErr
      ∧ (Describe ext serviceName serviceDescription lambdaAWSInfos api s3Site s3BucketName
        buildTags linkFlags workflowHooks).calls = [Call.validateSpartaPreconditions]
      ∧ (Describe ext serviceName serviceDescription lambdaAWSInfos api s3Site s3BucketName
        buildTags linkFlags workflowHooks).nodes = []
      ∧ (Describe ext serviceName serviceDescription lambdaAWSInfos api s3Site s3BucketName
        buildTags linkFlags workflowHooks).output = [] := by
  have hrun : Describe ext serviceName serviceDescription lambdaAWSInfos api s3Site s3BucketName
      buildTags linkFlags workflowHooks
        = { err := some validationErr, calls := [Call.validateSpartaPreconditions],
            nodes := [], output := [] } := by
    unfold Describe
    rw [hvalid]
  rw [hrun]
  exact ⟨rfl, rfl, rfl, rfl⟩

/-- Witness of C14: validation rejects an empty set of compute units. -/
theorem Describe_validation_error_witness :
    (Describe { sampleExternals with
          validateSpartaPreconditions := fun ls => if ls.isEmpty then some "no units" else none }
        "svc" "a service" [] (some labelledGateway) none "bucket" "" ""
        (some { ServiceDecorators := [namedDecorator] })).calls
      = [Call.validateSpartaPreconditions] :=
  (Describe_validation_error { sampleExternals with
      validateSpartaPreconditions := fun ls => if ls.isEmpty then some "no units" else none }
    "svc" "a service" [] (some labelledGateway) none "bucket" "" ""
    (some { ServiceDecorators := [namedDecorator] }) "no units" rfl).2.1

/-- C15: in every successful assembly run the accumulated sequence is the root node
record followed by the blocks of the producers in pipeline order: each compute unit
in declared order (under "Lambdas"), then the gateway if present (under its name),
then each describable hook in declared order (under its name or "WorkflowHooks").
Within a block the triplets keep their order, each contributing its source node
record immediately followed by its edge record, and a group node record stands in
front of exactly the first block of each non-empty label. -/
theorem assemble_records_in_declared_order (nodeColorService serviceName : String)
    (lambdaAWSInfos : List LambdaAWSInfo) (api : Option APIGateway)
    (workflowHooks : Option WorkflowHooks)
    (h : (assemble nodeColorService serviceName lambdaAWSInfos api workflowHooks).1 = none) :
    (assemble nodeColorService serviceName lambdaAWSInfos api workflowHooks).2.describer.nodes
      = rootRecord nodeColorService serviceName
          :: declaredRecords []
              (lambdaAWSInfos.map (fun l => ("Lambdas", lambdaTriplets serviceName l))
                ++ api.toList.map (fun a => ((describedGroup (a.Describe serviceName)).Name,
                                             (describedGroup (a.Describe serviceName)).Nodes))
                ++ (describables workflowHooks).map
                    (fun d => (hookGroupName (describedGroup (d.Describe serviceName)),
                               (describedGroup (d.Describe serviceName)).Nodes))) := by
  rw [assemble_nodes _ _ _ _ _ h,
    groupsRecords_eq_declaredRecords [] [] _ (fun _ _ => Iff.rfl)]
  rfl

/-- Witness of C15: two compute units, a gateway and two hooks, one of which reuses
the label "Lambdas". -/
theorem assemble_records_in_declared_order_witness :
    (assemble "#720502" "svc" [unitA, emptyUnit] (some labelledGateway)
        (some { ServiceDecorators := [lambdasDecorator, plainDecorator, anonymousDecorator] })).2.describer.nodes
      = [rootRecord "#720502" "svc",
         groupRecord "Lambdas", sourceRecord "Lambdas" unitATriplet, edgeRecord unitATriplet,
         groupRecord "API", sourceRecord "API" unitATriplet, edgeRecord unitATriplet,
         sourceRecord "Lambdas" unitATriplet, edgeRecord unitATriplet,
         groupRecord "WorkflowHooks", sourceRecord "WorkflowHooks" unitATriplet,
         edgeRecord unitATriplet] :=
  (assemble_records_in_declared_order "#720502" "svc" [unitA, emptyUnit] (some labelledGateway)
    (some { ServiceDecorators := [lambdasDecorator, plainDecorator, anonymousDecorator] })
    rfl).trans (by decide)

/-- C16: parent before child.  In every successful assembly run, every node record
with a non-empty parent is preceded, strictly earlier in the accumulated sequence,
by the group node record of that parent (id equal to the parent, color "#FF0000",
the empty-image icon, no parent, bold weight). -/
theorem assemble_parent_before_child (nodeColorService serviceName : String)
    (lambdaAWSInfos : List LambdaAWSInfo) (api : Option APIGateway)
    (workflowHooks : Option WorkflowHooks)
    (h : (assemble nodeColorService serviceName lambdaAWSInfos api workflowHooks).1 = none)
    (before : List cytoscapeNode) (r : cytoscapeNode) (after : List cytoscapeNode)
    (parent : String)
    (hsplit : (assemble nodeColorService serviceName lambdaAWSInfos api
        workflowHooks).2.describer.nodes = before ++ r :: after)
    (hparent : r.parent? = some parent) (hne : parent ≠ "") :
    cytoscapeNode.node parent "#FF0000" "AWS-Architecture-Icons_PNG/empty-image.png" ""
        LabelWeight.labelWeightBold ∈ before := by
  rw [assemble_nodes _ _ _ _ _ h] at hsplit
  have hroot : parentsBefore [] [rootRecord nodeColorService serviceName] := by
    apply parentsBefore_of_forall
    intro x hx p hp hpne
    have hxr : x = rootRecord nodeColorService serviceName := by simpa using hx
    rw [hxr] at hp
    have : p = "" := by simpa [rootRecord, cytoscapeNode.parent?] using hp.symm
    exact absurd this hpne
  have hall := parentsBefore_append [] [rootRecord nodeColorService serviceName]
    (groupsRecords [] (pipelineGroups serviceName lambdaAWSInfos api workflowHooks)) hroot
    (parentsBefore_groupsRecords _ [] _ (by simp))
  have := hall before r after (by simpa using hsplit) parent hparent hne
  simpa [groupRecord] using this

/-- Witness of C16: the node "UnitA" written for a hook under "Hooks", after a
compute unit wrote under "Lambdas". -/
theorem assemble_parent_before_child_witness :
    cytoscapeNode.node "Hooks" "#FF0000" "AWS-Architecture-Icons_PNG/empty-image.png" ""
        LabelWeight.labelWeightBold
      ∈ [rootRecord "#720502" "svc", groupRecord "Lambdas", sourceRecord "Lambdas" unitATriplet,
         edgeRecord unitATriplet, groupRecord "Hooks"] :=
  assemble_parent_before_child "#720502" "svc" [unitA] none
    (some { ServiceDecorators := [namedDecorator] }) rfl
    [rootRecord "#720502" "svc", groupRecord "Lambdas", sourceRecord "Lambdas" unitATriplet,
     edgeRecord unitATriplet, groupRecord "Hooks"]
    (sourceRecord "Hooks" unitATriplet) [edgeRecord unitATriplet] "Hooks"
    (by decide) rfl (by decide)

/-- C17: missing display metadata is defaulted per triplet by the loop of
`writeNodes`.  The loop never fails, and for a triplet at any position of the
sequence it appends, between the records of the triplets before it and those of the
triplets after it, a normal-weight node record and the edge record.  Without display
info the node record has the empty color and the icon path
"AWS-Architecture-Icons_PNG/empty-image.png", and the whole result is that of the
same sequence with empty display info in its place; display info without an icon
keeps its color and gets the same placeholder icon path; display info with an icon
of category `c` and name `n` keeps its color and gets the icon path
"AWS-Architecture-Icons_PNG/PNG Light/" ++ c ++ "/" ++ n. -/
theorem writeNodesLoop_display_defaults (parent source arcLabel target : String)
    (pre post : List DescriptionTriplet) (st : describeState) :
    writeNodesLoop parent
        (pre ++ { SourceNodeName := source, DisplayInfo := none, ArcLabel := arcLabel,
                  TargetNodeName := target } :: post) st
      = (none,
          { st with describer := { nodes := (st.describer.nodes
              ++ tripletRecords parent pre
              ++ [cytoscapeNode.node source "" "AWS-Architecture-Icons_PNG/empty-image.png" parent
                    LabelWeight.labelWeightNormal,
                  cytoscapeNode.edge source target arcLabel]
              ++ tripletRecords parent post) } })
    ∧ writeNodesLoop parent
        (pre ++ { SourceNodeName := source, DisplayInfo := none, ArcLabel := arcLabel,
                  TargetNodeName := target } :: post) st
      = writeNodesLoop parent
          (pre ++ { SourceNodeName := source,
                    DisplayInfo := some { SourceNodeColor := "", SourceIcon := none },
                    ArcLabel := arcLabel, TargetNodeName := target } :: post) st
    ∧ (∀ color : String,
        writeNodesLoop parent
            (pre ++ { SourceNodeName := source,
                      DisplayInfo := some { SourceNodeColor := color, SourceIcon := none },
                      ArcLabel := arcLabel, TargetNodeName := target } :: post) st
          = (none,
              { st with describer := { nodes := (st.describer.nodes
                  ++ tripletRecords parent pre
                  ++ [cytoscapeNode.node source color
                        "AWS-Architecture-Icons_PNG/empty-image.png" parent
                        LabelWeight.labelWeightNormal,
                      cytoscapeNode.edge source target arcLabel]
                  ++ tripletRecords parent post) } }))
    ∧ (∀ color c n : String,
        writeNodesLoop parent
            (pre ++ { SourceNodeName := source,
                      DisplayInfo := some { SourceNodeColor := color,
                                            SourceIcon := some { Category := c, Name := n } },
                      ArcLabel := arcLabel, TargetNodeName := target } :: post) st
          = (none,
              { st with describer := { nodes := (st.describer.nodes
                  ++ tripletRecords parent pre
                  ++ [cytoscapeNode.node source color
                        ("AWS-Architecture-Icons_PNG/PNG Light/" ++ c ++ "/" ++ n) parent
                        LabelWeight.labelWeightNormal,
                      cytoscapeNode.edge source target arcLabel]
                  ++ tripletRecords parent post) } })) := by
  have hclosed : ∀ t : DescriptionTriplet,
      writeNodesLoop parent (pre ++ t :: post) st
        = (none,
            { st with describer := { nodes := (st.describer.nodes
                ++ tripletRecords parent pre
                ++ [sourceRecord parent t, edgeRecord t]
                ++ tripletRecords parent post) } }) := by
    intro t
    rw [writeNodesLoop_eq, tripletRecords_append]
    simp [tripletRecords]
  refine ⟨hclosed _, ?_, fun color => hclosed _, fun color c n => hclosed _⟩
  rw [hclosed, hclosed]
  rfl

/-- Witness of C17: a triplet without display info followed by one with a color and
an icon, written under "Lambdas". -/
theorem writeNodesLoop_display_defaults_witness :
    writeNodesLoop "Lambdas" [unitATriplet, queueTriplet]
        { describer := { nodes := [] }, parentMap := ["Lambdas"], calls := [] }
      = (none,
          { describer := { nodes :=
              [cytoscapeNode.node "UnitA" "" "AWS-Architecture-Icons_PNG/empty-image.png" "Lambdas"
                 LabelWeight.labelWeightNormal,
               cytoscapeNode.edge "UnitA" "TableX" "writes",
               cytoscapeNode.node "Queue" "#00FF00"
                 "AWS-Architecture-Icons_PNG/PNG Light/Application Integration/Amazon-SQS.png"
                 "Lambdas" LabelWeight.labelWeightNormal,
               cytoscapeNode.edge "Queue" "UnitA" "feeds"] },
            parentMap := ["Lambdas"], calls := [] }) :=
  ((writeNodesLoop_display_defaults "Lambdas" "Queue" "feeds" "UnitA" [unitATriplet] []
      { describer := { nodes := [] }, parentMap := ["Lambdas"], calls := [] }).2.2.2
    "#00FF00" "Application Integration" "Amazon-SQS.png").trans (by decide)

/-- C18: when a gateway is present and its describe call succeeds, its triplets are
written under exactly the label it supplies: the step appends the group node record
of that label when the label is non-empty and new, then the records of the triplets
with that label as parent.  When the label is empty the step appends no group node
record, only the triplets' records, and every node record among them has the empty
parent. -/
theorem gateway_written_under_its_label (serviceName : String) (api : APIGateway)
    (descriptionInfo : DescriptionInfo) (st : describeState)
    (hdescribe : api.Describe serviceName = .ok descriptionInfo) :
    (apiStep serviceName (some api) st).1 = none
      ∧ (apiStep serviceName (some api) st).2.describer.nodes
        = st.describer.nodes
          ++ (if descriptionInfo.Name ≠ "" ∧ descriptionInfo.Name ∉ st.parentMap then
                [cytoscapeNode.node descriptionInfo.Name "#FF0000"
                  "AWS-Architecture-Icons_PNG/empty-image.png" "" LabelWeight.labelWeightBold]
              else [])
          ++ tripletRecords descriptionInfo.Name descriptionInfo.Nodes
      ∧ (∀ r ∈ tripletRecords descriptionInfo.Name descriptionInfo.Nodes,
          r.isNode = true → r.parent? = some descriptionInfo.Name)
      ∧ (descriptionInfo.Name = "" →
          (apiStep serviceName (some api) st).2.describer.nodes
              = st.describer.nodes ++ tripletRecords "" descriptionInfo.Nodes
            ∧ (∀ r ∈ tripletRecords "" descriptionInfo.Nodes,
                r.isNode = true → r.parent? = some "")
            ∧ (∀ label, groupRecord label ∉ tripletRecords "" descriptionInfo.Nodes)) := by
  have hparent : ∀ (label : String) (ts : List DescriptionTriplet),
      ∀ r ∈ tripletRecords label ts, r.isNode = true → r.parent? = some label := by
    intro label ts r hr hnode
    obtain ⟨t, -, hs | he⟩ := (mem_tripletRecords _ _ _).mp hr
    · rw [hs]; exact parent?_sourceRecord _ _
    · rw [he] at hnode; simp [edgeRecord, cytoscapeNode.isNode] at hnode
  have hstep : apiStep serviceName (some api) st
      = (none, { describer := { nodes := st.describer.nodes
                    ++ groupRecords st.parentMap descriptionInfo.Name descriptionInfo.Nodes },
                 parentMap := parentsAfter st.parentMap descriptionInfo.Name,
                 calls := st.calls ++ [Call.apiDescribe] }) := by
    simp only [apiStep, hdescribe, writeNodes_eq]
  refine ⟨by rw [hstep], ?_, hparent _ _, ?_⟩
  · rw [hstep]
    simp only [groupRecords, groupRecord, List.append_assoc]
  · intro hname
    refine ⟨?_, hparent _ _, ?_⟩
    · rw [hstep, hname]
      simp [groupRecords]
    · intro label hmem
      have := count_groupRecord_tripletRecords label "" descriptionInfo.Nodes
      rw [List.count_eq_zero] at this
      exact this hmem

/-- Witness of C18: a gateway with the empty label, after a compute unit. -/
theorem gateway_written_under_its_label_witness :
    (apiStep "svc" (some unlabelledGateway)
        { describer := { nodes := [rootRecord "#720502" "svc"] }, parentMap := [],
          calls := [] }).2.describer.nodes
      = [rootRecord "#720502" "svc"] ++ tripletRecords "" [unitATriplet] :=
  ((gateway_written_under_its_label "svc" unlabelledGateway
      { Name := "", Nodes := [unitATriplet] }
      { describer := { nodes := [rootRecord "#720502" "svc"] }, parentMap := [], calls := [] }
      rfl).2.2.2 rfl).1

/-- C19: a group node is emitted for a non-empty, new label even when the producer
returns zero triplets: `writeNodes` with no triplets appends exactly the group node
record.  In particular, with one compute unit whose description is empty, no gateway
and no hooks, the accumulated sequence is the root node record and the "Lambdas"
group node record: two node records, zero edge records, a group without children. -/
theorem assemble_group_without_children (nodeColorService serviceName : String)
    (unit : LambdaAWSInfo) (workflowHooks : Option WorkflowHooks)
    (hunit : unit.Description serviceName = .ok [])
    (hhooks : workflowHooks = none ∨ workflowHooks = some { ServiceDecorators := [] }) :
    (∀ (st : describeState) (label : String), label ≠ "" → label ∉ st.parentMap →
        (writeNodes st label []).2.describer.nodes
          = st.describer.nodes
            ++ [cytoscapeNode.node label "#FF0000" "AWS-Architecture-Icons_PNG/empty-image.png" ""
                  LabelWeight.labelWeightBold])
      ∧ (assemble nodeColorService serviceName [unit] none workflowHooks).1 = none
      ∧ (assemble nodeColorService serviceName [unit] none workflowHooks).2.describer.nodes
        = [cytoscapeNode.node serviceName nodeColorService
            "AWS-Architecture-Icons_PNG/PNG Light/Management & Governance/AWS-CloudFormation_Stack_light-bg@4x.png"
            "" LabelWeight.labelWeightBold,
           cytoscapeNode.node "Lambdas" "#FF0000" "AWS-Architecture-Icons_PNG/empty-image.png" ""
            LabelWeight.labelWeightBold]
      ∧ (assemble nodeColorService serviceName [unit] none
            workflowHooks).2.describer.nodes.countP cytoscapeNode.isNode = 2
      ∧ (assemble nodeColorService serviceName [unit] none
            workflowHooks).2.describer.nodes.countP cytoscapeNode.isEdge = 0 := by
  have herr : (assemble nodeColorService serviceName [unit] none none).1 = none := by
    rw [assemble_err]
    simp [producerOutcomes, describables, firstError, errorOf, hunit]
  have hnodes : (assemble nodeColorService serviceName [unit] none none).2.describer.nodes
      = [cytoscapeNode.node serviceName nodeColorService
          "AWS-Architecture-Icons_PNG/PNG Light/Management & Governance/AWS-CloudFormation_Stack_light-bg@4x.png"
          "" LabelWeight.labelWeightBold,
         cytoscapeNode.node "Lambdas" "#FF0000" "AWS-Architecture-Icons_PNG/empty-image.png" ""
          LabelWeight.labelWeightBold] := by
    rw [assemble_nodes _ _ _ _ _ herr]
    simp [pipelineGroups, describables, lambdaTriplets, hunit, groupsRecords, groupRecords,
      tripletRecords, groupRecord, rootRecord]
  rw [assemble_no_hooks _ _ _ _ _ hhooks, hnodes]
  refine ⟨?_, herr, rfl, by simp [cytoscapeNode.isNode], by simp [cytoscapeNode.isEdge]⟩
  intro st label hne hnew
  rw [writeNodes_eq]
  simp [groupRecords, tripletRecords, groupRecord, hne, hnew]

/-- Witness of C19: the compute unit `emptyUnit`. -/
theorem assemble_group_without_children_witness :
    (assemble "#720502" "svc" [emptyUnit] none none).2.describer.nodes
      = [cytoscapeNode.node "svc" "#720502"
          "AWS-Architecture-Icons_PNG/PNG Light/Management & Governance/AWS-CloudFormation_Stack_light-bg@4x.png"
          "" LabelWeight.labelWeightBold,
         cytoscapeNode.node "Lambdas" "#FF0000" "AWS-Architecture-Icons_PNG/empty-image.png" ""
          LabelWeight.labelWeightBold] :=
  (assemble_group_without_children "#720502" "svc" emptyUnit none rfl (Or.inl rfl)).2.2.1

/-- C20: exact node count.  In every successful assembly run the number of node
records is 1 + G + N, where N is the number of triplets returned by all producers
and G the number of distinct non-empty labels among the labels processed ("Lambdas"
for each compute unit, the gateway's label, each describable hook's label after the
fallback for the empty name). -/
theorem assemble_node_count (nodeColorService serviceName : String)
    (lambdaAWSInfos : List LambdaAWSInfo) (api : Option APIGateway)
    (workflowHooks : Option WorkflowHooks)
    (h : (assemble nodeColorService serviceName lambdaAWSInfos api workflowHooks).1 = none) :
    (assemble nodeColorService serviceName lambdaAWSInfos api workflowHooks).2.describer.nodes.countP
        cytoscapeNode.isNode
      = 1
        + ((((pipelineGroups serviceName lambdaAWSInfos api workflowHooks).map Prod.fst).filter
              (fun label => decide (label ≠ ""))).dedup).length
        + (producerTriplets serviceName lambdaAWSInfos api workflowHooks).length := by
  rw [assemble_nodes _ _ _ _ _ h, producerTriplets_eq,
    List.countP_cons_of_pos _ _ (by simp [rootRecord, cytoscapeNode.isNode]),
    countP_isNode_groupsRecords_eq, ← List.card_toFinset, List.toFinset_filter]
  have hf : ((pipelineGroups serviceName lambdaAWSInfos api workflowHooks).map
        Prod.fst).toFinset.filter (fun l => l ≠ "" ∧ l ∉ ([] : List String))
      = ((pipelineGroups serviceName lambdaAWSInfos api workflowHooks).map
        Prod.fst).toFinset.filter (fun x => decide (x ≠ "") = true) := by
    ext l
    simp
  rw [hf]
  omega

/-- Witness of C20: two compute units, a gateway labelled "API", a hook reusing
"Lambdas" and a hook without a name: G = 3 and N = 5 give nine node records. -/
theorem assemble_node_count_witness :
    (assemble "#720502" "svc" [unitA, emptyUnit] (some labelledGateway)
        (some { ServiceDecorators :=
          [lambdasDecorator, plainDecorator, queueDecorator] })).2.describer.nodes.countP
        cytoscapeNode.isNode = 9 :=
  (assemble_node_count "#720502" "svc" [unitA, emptyUnit] (some labelledGateway)
    (some { ServiceDecorators :=
      [lambdasDecorator, plainDecorator, queueDecorator] }) rfl).trans
    (by
      have hlabels : (pipelineGroups "svc" [unitA, emptyUnit] (some labelledGateway)
          (some { ServiceDecorators :=
            [lambdasDecorator, plainDecorator, queueDecorator] })).map Prod.fst
          = ["Lambdas", "Lambdas", "API", "Lambdas", "WorkflowHooks"] := by decide
      have htriplets : (producerTriplets "svc" [unitA, emptyUnit] (some labelledGateway)
          (some { ServiceDecorators :=
            [lambdasDecorator, plainDecorator, queueDecorator] })).length = 5 := by decide
      rw [hlabels, htriplets]
      simp [List.dedup_cons_of_mem, List.dedup_cons_of_not_mem])

end Sparta
